import Mathlib

/-!
# Community event bulletin: event lifecycle, interest registry, reminder job

A shallow embedding of the two Express backends of the repository,

* `src/Frontend & Backend/server.js` (namespace `Server`): events with a moderation
  status, status e-mails, per-event interest files, the daily reminder job;
* `src/Frontend & Backend/index.js` (namespace `Index`): events that carry their
  interests inline, no status and no e-mail.

JavaScript values that travel through the handlers are JSON values.  A property
read `o.k` is `getProp o k`, with `none` standing for `undefined`.  The files
on disk are explicit state; the mail transport is an explicit, possibly failing,
stateful capability; `uuidv4()` and `dayjs()` are inputs of the handler that
uses them.

Conventions of the model:

* a readable `events.json` or `users.json` holds an array of objects, which is
  what the handlers write; an unreadable one is `none`;
* an object lists its properties in insertion order; the order is seen by
  `JSON.stringify` only and by no property read;
* a JSON number is given by its JavaScript string form, the one `String(n)` and
  `JSON.stringify(n)` print (`"2"`, `"0.5"`, `"1e+21"`; zero of either sign is
  `"0"`); two numbers are `===` exactly when the forms agree;
* a conversion to string that throws a `TypeError` is `none`;
* writes to disk succeed.
-/

namespace Bulletin

/-! ## JSON values and the JavaScript operators the handlers apply to them -/

/-- JSON values as produced by `JSON.parse`.  A number is held as its JavaScript
string form. -/
inductive Json where
  | null
  | bool (b : Bool)
  | num (form : String)
  | str (s : String)
  | arr (items : List Json)
  | obj (fields : List (String × Json))

/-- A JSON object: its own properties in insertion order. -/
abbrev Obj := List (String × Json)

/-- Property read `o.k` on an object; `none` is `undefined`. -/
def getProp : Obj → String → Option Json
  | [], _ => none
  | (k', v) :: rest, k => if k' = k then some v else getProp rest k

/-- Property write `o[k] = v`: overwrite in place, or add the key at the end. -/
def setProp : Obj → String → Json → Obj
  | [], k, v => [(k, v)]
  | (k', v') :: rest, k, v =>
    if k' = k then (k, v) :: rest else (k', v') :: setProp rest k v

/-- Object spread `{ ...o, ...src }`: the entries of `src` are written into a copy
of `o` one after the other, so a later entry wins. -/
def assign (o : Obj) (src : List (String × Json)) : Obj :=
  src.foldl (fun acc p => setProp acc p.1 p.2) o

/-- Index keys `"0"`, `"1"`, ... paired with the items of an array, from `i` on. -/
def indexed : Nat → List Json → List (String × Json)
  | _, [] => []
  | i, x :: xs => (toString i, x) :: indexed (i + 1) xs

/-- Own enumerable properties of a request body, as the spread `...req.body` sees
them.  `express.json()` hands a handler an object or an array only. -/
def Json.entries : Json → List (String × Json)
  | .obj fields => fields
  | .arr items => indexed 0 items
  | _ => []

/-- Property read `req.body.k` for a key that is not an array index or `length`
(the handlers read `status` only). -/
def Json.get : Json → String → Option Json
  | .obj fields, k => getProp fields k
  | _, _ => none

/-- Strict equality `a === b` of two values read from parsed JSON documents.
Two objects or two arrays are never the same reference. -/
def strictEq : Option Json → Option Json → Bool
  | none, none => true
  | some .null, some .null => true
  | some (.bool a), some (.bool b) => a == b
  | some (.num a), some (.num b) => a == b
  | some (.str a), some (.str b) => a == b
  | _, _ => false

/-- JavaScript truthiness, as tested by `if (v)` and `a && b`. -/
def truthy : Option Json → Bool
  | none => false
  | some .null => false
  | some (.bool b) => b
  | some (.num form) => form != "0"
  | some (.str s) => s != ""
  | some (.arr _) => true
  | some (.obj _) => true

mutual
/-- String conversion of a value inside a template literal; `none` when it throws.
An object with an own `toString` property has no callable `toString` and its
`valueOf` returns the object, so the conversion throws a `TypeError`; every
other parsed object is `[object Object]`. -/
def jsString : Json → Option String
  | .null => some "null"
  | .bool b => some (if b then "true" else "false")
  | .num form => some form
  | .str s => some s
  | .arr items => jsJoin items
  | .obj fields => if (getProp fields "toString").isSome then none else some "[object Object]"
/-- The conversion `Array.prototype.join(",")` behind the string form of an array;
it throws when the conversion of an element throws. -/
def jsJoin : List Json → Option String
  | [] => some ""
  | [x] => jsElement x
  | x :: y :: rest =>
    match jsElement x, jsJoin (y :: rest) with
    | some first, some others => some (first ++ "," ++ others)
    | _, _ => none
/-- String form of one array element: `null` is rendered as the empty string. -/
def jsElement : Json → Option String
  | .null => some ""
  | .bool b => some (if b then "true" else "false")
  | .num form => some form
  | .str s => some s
  | .arr items => jsJoin items
  | .obj fields => if (getProp fields "toString").isSome then none else some "[object Object]"
end

/-- Template interpolation `${v}` of a possibly undefined value; `none` when the
conversion throws. -/
def interpolate : Option Json → Option String
  | none => some "undefined"
  | some v => jsString v

/-- Whether `${v}` yields a string: every value but an object with an own
`toString` property, or an array that holds one at any depth. -/
def hasStringForm (v : Option Json) : Bool :=
  (interpolate v).isSome

/-- The result of `xs.findIndex(p)`; `none` stands for `-1`. -/
def findIndex {α : Type} (p : α → Bool) : List α → Option Nat
  | [] => none
  | x :: xs => if p x then some 0 else (findIndex p xs).map (· + 1)

/-- The result of `xs.find(p)`; `none` is `undefined`. -/
def findFirst {α : Type} (p : α → Bool) : List α → Option α
  | [] => none
  | x :: xs => if p x then some x else findFirst p xs

/-- The callback `e => e.id === req.params.id` (also used on users). -/
def hasId (id : String) (e : Obj) : Bool :=
  strictEq (getProp e "id") (some (.str id))

/-! ## HTTP responses, mail, transport -/

/-- What a handler sends back after the status line. -/
inductive Payload where
  | empty
  | json (j : Json)
  | text (s : String)

/-- An HTTP response: status code and payload. -/
structure Response where
  status : Nat
  payload : Payload

/-- The `mailOptions` object handed to `transporter.sendMail`; `sender` is its
`from` field and `recipient` its `to` field. -/
structure Mail where
  sender : String
  recipient : Option Json
  subject : String
  text : String

/-- The mail transport: `sendMail` resolves (`true`) or rejects (`false`) and may
change the transport's own state. -/
structure Transport (σ : Type) where
  sendMail : σ → Mail → Bool × σ

/-- The moderation statuses of the data model. -/
inductive Status where
  | pending
  | approved
  | rejected

/-- The string a status is stored as. -/
def Status.toJson : Status → Json
  | .pending => .str "pending"
  | .approved => .str "approved"
  | .rejected => .str "rejected"

/-- The event a response carries, when its payload is a JSON object. -/
def Response.event (r : Response) : Option Obj :=
  match r.payload with
  | .json (.obj e) => some e
  | _ => none

/-- The fields the event form submits. -/
def requiredFields : List String :=
  ["title", "category", "date", "time", "location", "description"]

/-- A request body that carries every field of the event form. -/
def hasRequiredFields (body : Json) : Bool :=
  requiredFields.all (fun k => (body.get k).isSome)

/-- The callback `u => u.id === event.userId` of the organizer lookup. -/
def ownsEvent (event : Obj) (u : Obj) : Bool :=
  strictEq (getProp u "id") (getProp event "userId")

/-- The value `organizer?.email` for the first user that owns the event. -/
def organizerEmail (users : List Obj) (event : Obj) : Option Json :=
  (findFirst (ownsEvent event) users).bind (fun u => getProp u "email")

/-! ## `server.js` -/

namespace Server

/-- The JSON files under `./data`: `events.json`, `users.json` and the files
`interests-<id>.json`, listed by event id.  `none` is a file that cannot be read
or parsed. -/
structure Disk where
  events : Option (List Obj)
  users : Option (List Obj)
  interests : List (String × List Json)

/-- Source `readData`: the parsed array, or the empty array when reading fails. -/
def readData {α : Type} (file : Option (List α)) : List α :=
  match file with
  | some data => data
  | none => []

/-- Source `writeData`: the file now holds `data`. -/
def writeData {α : Type} (data : List α) : Option (List α) :=
  some data

/-- The file `interests-<id>.json`, if there is one. -/
def interestFile : List (String × List Json) → String → Option (List Json)
  | [], _ => none
  | (k, v) :: rest, id => if k = id then some v else interestFile rest id

/-- Write `interests-<id>.json`, creating the file when it is not there. -/
def writeInterestFile : List (String × List Json) → String → List Json →
    List (String × List Json)
  | [], id, data => [(id, data)]
  | (k, v) :: rest, id, data =>
    if k = id then (id, data) :: rest else (k, v) :: writeInterestFile rest id data

/-- The `mailOptions` built by `sendEventStatusEmail`, before its `try`; `none`
when a template literal throws. -/
def statusMail (recipient eventTitle status : Option Json) : Option Mail :=
  match interpolate eventTitle, interpolate status with
  | some title, some st =>
    some { sender := "\"Community Events\" <your.email@gmail.com>"
           recipient := recipient
           subject := "Event \"" ++ title ++ "\" " ++ st
           text := "Hello,\n\nYour event \"" ++ title ++ "\" has been " ++ st
             ++ ".\n\nThanks." }
  | _, _ => none

/-- Source `sendEventStatusEmail`.  When building `mailOptions` throws, the
function ends (its promise is rejected) with no `sendMail`: `none`.  Otherwise
one `sendMail`, whose rejection is caught and logged: the attempt with its
outcome and the transport state after it.  The log lines pass their values as
arguments of `console.log` and convert nothing. -/
def sendEventStatusEmail {σ : Type} (t : Transport σ) (m : σ)
    (recipient eventTitle status : Option Json) : Option ((Mail × Bool) × σ) :=
  match statusMail recipient eventTitle status with
  | none => none
  | some mailOptions =>
    let r := t.sendMail m mailOptions
    some ((mailOptions, r.1), r.2)

/-- What a handler that may send mail leaves behind: the response, the files, the
transport state and the `sendMail` calls made, each with its outcome. -/
structure Outcome (σ : Type) where
  response : Response
  disk : Disk
  mailer : σ
  attempts : List (Mail × Bool)

/-- What a run of the reminder job leaves behind. -/
structure JobRun (σ : Type) where
  disk : Disk
  mailer : σ
  attempts : List (Mail × Bool)

/-- Handler `app.get('/events/:id')`. -/
def getEventById (d : Disk) (id : String) : Response × Disk :=
  let events := readData d.events
  match findFirst (hasId id) events with
  | none => (⟨404, .json (.obj [("message", .str "Event not found")])⟩, d)
  | some event => (⟨200, .json (.obj event)⟩, d)

/-- Handler `app.post('/events')`; `uuid` is the value of `uuidv4()`. -/
def postEvents (d : Disk) (uuid : String) (body : Json) : Response × Disk :=
  let events := readData d.events
  let newEvent := assign [("id", .str uuid), ("status", .str "pending")] body.entries
  (⟨201, .json (.obj newEvent)⟩, { d with events := writeData (events ++ [newEvent]) })

/-- Handler `app.patch('/events/:id')`.  The call of `sendEventStatusEmail` is not
awaited: when it ends by a throw the handler still answers, and no send was
made. -/
def patchEvent {σ : Type} (t : Transport σ) (m : σ) (d : Disk) (id : String)
    (body : Json) : Outcome σ :=
  let events := readData d.events
  let users := readData d.users
  match findIndex (hasId id) events with
  | none => ⟨⟨404, .json (.obj [("message", .str "Event not found")])⟩, d, m, []⟩
  | some idx =>
    let merged := assign (events.getD idx []) body.entries
    let d' := { d with events := writeData (events.set idx merged) }
    let email := organizerEmail users merged
    if truthy email && truthy (body.get "status") then
      match sendEventStatusEmail t m email (getProp merged "title") (body.get "status") with
      | some sent => ⟨⟨200, .json (.obj merged)⟩, d', sent.2, [sent.1]⟩
      | none => ⟨⟨200, .json (.obj merged)⟩, d', m, []⟩
    else
      ⟨⟨200, .json (.obj merged)⟩, d', m, []⟩

/-- Handler `app.delete('/events/:id')`. -/
def deleteEvent (d : Disk) (id : String) : Response × Disk :=
  let events := (readData d.events).filter (fun e => !hasId id e)
  (⟨204, .empty⟩, { d with events := writeData events })

/-- Handler `app.post('/events/:id/interest')`. -/
def postInterest (d : Disk) (id : String) (body : Json) : Response × Disk :=
  let existing := readData (interestFile d.interests id)
  (⟨201, .json (.obj [("message", .str "Interest saved")])⟩,
    { d with interests := writeInterestFile d.interests id (existing ++ [body]) })

/-- Register requests for one event id, one after the other: the responses and the
files at the end. -/
def registerAll (d : Disk) (id : String) : List Json → List Response × Disk
  | [] => ([], d)
  | body :: rest =>
    let r := postInterest d id body
    let later := registerAll r.2 id rest
    (r.1 :: later.1, later.2)

/-- The `mailOptions` of a reminder, built before the `try` of the loop; `none`
when a template literal throws. -/
def reminderMail (recipient : Option Json) (event : Obj) : Option Mail :=
  match interpolate (getProp event "title"), interpolate (getProp event "date"),
    interpolate (getProp event "location"), interpolate (getProp event "time") with
  | some title, some date, some location, some time =>
    some { sender := "\"Community Events\" <your.email@gmail.com>"
           recipient := recipient
           subject := "Reminder: \"" ++ title ++ "\" is happening tomorrow!"
           text := "Hello,\n\nThis is a reminder that your event \"" ++ title
             ++ "\" is scheduled for tomorrow (" ++ date ++ ").\n\nLocation: "
             ++ location ++ "\nTime: " ++ time ++ "\n\nBest of luck!" }
  | _, _, _, _ => none

/-- The filter callback `e => e.status === 'approved' && e.date === tomorrow`. -/
def isDueTomorrow (tomorrow : String) (e : Obj) : Bool :=
  strictEq (getProp e "status") (some (.str "approved"))
    && strictEq (getProp e "date") (some (.str tomorrow))

/-- The loop `for (const event of eventsTomorrow)` of the reminder job: the
`sendMail` calls made, each with its outcome, and the transport state at the end.
A throw while `mailOptions` is built ends the callback before the send.  After
the send, the log line of the `try` and the one of the `catch` both interpolate
`user.email`: when that throws, the callback ends after this send, whatever its
outcome. -/
def remindAll {σ : Type} (t : Transport σ) (users : List Obj) :
    σ → List Obj → List (Mail × Bool) × σ
  | m, [] => ([], m)
  | m, event :: rest =>
    let email := organizerEmail users event
    if truthy email then
      match reminderMail email event with
      | none => ([], m)
      | some mailOptions =>
        let r := t.sendMail m mailOptions
        match interpolate email with
        | none => ([(mailOptions, r.1)], r.2)
        | some _ =>
          let later := remindAll t users r.2 rest
          ((mailOptions, r.1) :: later.1, later.2)
    else
      remindAll t users m rest

/-- The callback of `cron.schedule('0 9 * * *', ...)`; `tomorrow` is the value of
`dayjs().add(1, 'day').format('YYYY-MM-DD')`. -/
def reminderJob {σ : Type} (t : Transport σ) (m : σ) (d : Disk) (tomorrow : String) :
    JobRun σ :=
  let events := readData d.events
  let users := readData d.users
  let eventsTomorrow := events.filter (isDueTomorrow tomorrow)
  let run := remindAll t users m eventsTomorrow
  ⟨d, run.2, run.1⟩

/-- Handler `app.get('/events')`. -/
def getEvents (d : Disk) : Response × Disk :=
  let events := readData d.events
  (⟨200, .json (.arr (events.map Json.obj))⟩, d)

/-- Handler `app.get('/users')`. -/
def getUsers (d : Disk) : Response × Disk :=
  let users := readData d.users
  (⟨200, .json (.arr (users.map Json.obj))⟩, d)

/-- Handler `app.patch('/users/:id/ban')`. -/
def banUser (d : Disk) (id : String) : Response × Disk :=
  let users := readData d.users
  match findIndex (hasId id) users with
  | none => (⟨404, .json (.obj [("message", .str "User not found")])⟩, d)
  | some idx =>
    let user := setProp (users.getD idx []) "banned" (.bool true)
    (⟨200, .json (.obj user)⟩, { d with users := writeData (users.set idx user) })

/-- Handler `app.patch('/users/:id/verify')`. -/
def verifyUser (d : Disk) (id : String) : Response × Disk :=
  let users := readData d.users
  match findIndex (hasId id) users with
  | none => (⟨404, .json (.obj [("message", .str "User not found")])⟩, d)
  | some idx =>
    let user := setProp (users.getD idx []) "verifiedOrganizer" (.bool true)
    (⟨200, .json (.obj user)⟩, { d with users := writeData (users.set idx user) })

/-- Everything that makes `server.js` act: a request to one of its routes, or the
daily trigger of the reminder job. -/
inductive Request where
  | listEvents
  | getEvent (id : String)
  | createEvent (uuid : String) (body : Json)
  | patchEvent (id : String) (body : Json)
  | deleteEvent (id : String)
  | registerInterest (id : String) (body : Json)
  | listUsers
  | banUser (id : String)
  | verifyUser (id : String)
  | reminder (tomorrow : String)

/-- The files and the transport state after one request. -/
def step {σ : Type} (t : Transport σ) (s : Disk × σ) : Request → Disk × σ
  | .listEvents => ((getEvents s.1).2, s.2)
  | .getEvent id => ((getEventById s.1 id).2, s.2)
  | .createEvent uuid body => ((postEvents s.1 uuid body).2, s.2)
  | .patchEvent id body =>
    ((patchEvent t s.2 s.1 id body).disk, (patchEvent t s.2 s.1 id body).mailer)
  | .deleteEvent id => ((deleteEvent s.1 id).2, s.2)
  | .registerInterest id body => ((postInterest s.1 id body).2, s.2)
  | .listUsers => ((getUsers s.1).2, s.2)
  | .banUser id => ((banUser s.1 id).2, s.2)
  | .verifyUser id => ((verifyUser s.1 id).2, s.2)
  | .reminder tomorrow =>
    ((reminderJob t s.2 s.1 tomorrow).disk, (reminderJob t s.2 s.1 tomorrow).mailer)

/-- The files and the transport state after a sequence of requests. -/
def run {σ : Type} (t : Transport σ) (s : Disk × σ) : List Request → Disk × σ
  | [] => s
  | req :: rest => run t (step t s req) rest

end Server

/-! ## `index.js` -/

namespace Index

/-- The answer of Express to a handler that throws. -/
def internalError : Response :=
  ⟨500, .text "Internal Server Error"⟩

/-- Handler `app.get('/events')`.  The only file is `events.json`; `none` is a
file that cannot be read or parsed, on which `readData` throws. -/
def getEvents (file : Option (List Obj)) : Response × Option (List Obj) :=
  match file with
  | none => (internalError, file)
  | some data => (⟨200, .json (.arr (data.map Json.obj))⟩, file)

/-- Handler `app.get('/events/:id')`. -/
def getEventById (file : Option (List Obj)) (id : String) :
    Response × Option (List Obj) :=
  match file with
  | none => (internalError, file)
  | some data =>
    match findFirst (hasId id) data with
    | some event => (⟨200, .json (.obj event)⟩, file)
    | none => (⟨404, .text "Event not found"⟩, file)

/-- Handler `app.post('/events')`; `uuid` is the value of `uuidv4()`. -/
def postEvents (file : Option (List Obj)) (uuid : String) (body : Json) :
    Response × Option (List Obj) :=
  match file with
  | none => (internalError, file)
  | some data =>
    let newEvent := assign [("id", .str uuid), ("interests", .arr [])] body.entries
    (⟨201, .json (.obj newEvent)⟩, some (data ++ [newEvent]))

/-- Handler `app.delete('/events/:id')`. -/
def deleteEvent (file : Option (List Obj)) (id : String) :
    Response × Option (List Obj) :=
  match file with
  | none => (internalError, file)
  | some data => (⟨204, .empty⟩, some (data.filter (fun e => !hasId id e)))

/-- Handler `app.post('/events/:id/interest')`.  `push` on an `interests` value
that is not an array throws before anything is written. -/
def postInterest (file : Option (List Obj)) (id : String) (body : Json) :
    Response × Option (List Obj) :=
  match file with
  | none => (internalError, file)
  | some data =>
    match findIndex (hasId id) data with
    | none => (⟨404, .text "Event not found"⟩, file)
    | some eventIndex =>
      let event := data.getD eventIndex []
      match getProp event "interests" with
      | some (.arr interests) =>
        (⟨201, .text "Interest registered"⟩,
          some (data.set eventIndex (setProp event "interests" (.arr (interests ++ [body])))))
      | _ => (internalError, file)

/-- Register requests for one event id, one after the other: the responses and the
file at the end. -/
def registerAll (file : Option (List Obj)) (id : String) :
    List Json → List Response × Option (List Obj)
  | [] => ([], file)
  | body :: rest =>
    let r := postInterest file id body
    let later := registerAll r.2 id rest
    (r.1 :: later.1, later.2)

end Index


/-- Whether the request body has an own property `k`. -/
def carries (body : Json) (k : String) : Bool :=
  body.entries.any (fun p => p.1 == k)

/-- The end-to-end scenario on `server.js`: Create with the given body, PATCH the
minted id to approved, then one run of the reminder job. -/
def createApproveRemind {σ : Type} (t : Transport σ) (m : σ) (d : Server.Disk)
    (uuid : String) (body : Json) (tomorrow : String) : Server.JobRun σ :=
  let created := Server.postEvents d uuid body
  let approved := Server.patchEvent t m created.2 uuid (.obj [("status", .str "approved")])
  Server.reminderJob t approved.mailer approved.disk tomorrow

/-- The flags `banned` and `verifiedOrganizer` that are `true` in the users `us` are
`true` in `us'`, user by user. -/
def flagsKept (us us' : List Obj) : Prop :=
  us'.length = us.length
    ∧ ∀ (i : Nat) (flag : String), flag = "banned" ∨ flag = "verifiedOrganizer" →
        getProp (us.getD i []) flag = some (.bool true) →
        getProp (us'.getD i []) flag = some (.bool true)

/-- Whether a value is one of the three statuses of the data model. -/
def isStatus (v : Option Json) : Bool :=
  strictEq v (some (.str "pending")) || strictEq v (some (.str "approved"))
    || strictEq v (some (.str "rejected"))

/-- A request body whose every `status` property, if it has one, is a status of
the data model. -/
def statusSafe (body : Json) : Bool :=
  body.entries.all (fun p => p.1 != "status" || isStatus (some p.2))

/-- Requests that cannot store a status from outside the data model: Create and
PATCH with a status-safe body, and every other request. -/
def keepsStatus : Server.Request → Bool
  | .createEvent _ body => statusSafe body
  | .patchEvent _ body => statusSafe body
  | _ => true

/-- Every stored event has a status of the data model. -/
def statusInvariant (d : Server.Disk) : Prop :=
  ∀ e ∈ Server.readData d.events, isStatus (getProp e "status") = true

/-- The event `{ ...events[idx], ...req.body }` the PATCH handler stores at `idx`. -/
def mergedAt (d : Server.Disk) (idx : Nat) (body : Json) : Obj :=
  assign ((Server.readData d.events).getD idx []) body.entries

/-- The reminders of the specification: scan the events, select those with status
approved whose date is tomorrow, and for each selected event whose organizer is
found with an e-mail, one reminder to that e-mail. -/
def specReminders (users : List Obj) (tomorrow : String) (events : List Obj) : List Mail :=
  (events.filter (Server.isDueTomorrow tomorrow)).filterMap (fun e =>
    if truthy (organizerEmail users e) then
      Server.reminderMail (organizerEmail users e) e
    else none)

/-- An event whose reminder can be written and logged: its title, date, location
and time, and the e-mail of its organizer, have a string form. -/
def reminderReady (users : List Obj) (e : Obj) : Bool :=
  hasStringForm (getProp e "title") && hasStringForm (getProp e "date")
    && hasStringForm (getProp e "location") && hasStringForm (getProp e "time")
    && hasStringForm (organizerEmail users e)

/-! ## Sample data -/

namespace Sample

/-- The body the event form submits. -/
def fairBody : Json :=
  .obj [("title", .str "Fair"), ("category", .str "Festivals"),
    ("date", .str "2025-06-02"), ("time", .str "10:00"), ("location", .str "Park"),
    ("description", .str "Spring fair")]

/-- The same body with a status of its own. -/
def approvedFairBody : Json :=
  .obj [("title", .str "Fair"), ("category", .str "Festivals"),
    ("date", .str "2025-06-02"), ("time", .str "10:00"), ("location", .str "Park"),
    ("description", .str "Spring fair"), ("status", .str "approved")]

/-- One user with an e-mail address. -/
def ann : Obj :=
  [("id", .str "u1"), ("name", .str "Ann"), ("email", .str "ann@example.org")]

/-- No events, one user, no interest files. -/
def freshDisk : Server.Disk :=
  ⟨some [], some [ann], []⟩

/-- The form body of an event that Ann submits. -/
def annFairBody : Json :=
  .obj [("title", .str "Fair"), ("category", .str "Festivals"),
    ("date", .str "2025-06-02"), ("time", .str "10:00"), ("location", .str "Park"),
    ("description", .str "Spring fair"), ("userId", .str "u1")]

/-- The event `index.js` stores for the form body, minted as `e1`. -/
def indexFair : Obj :=
  [("id", .str "e1"), ("interests", .arr []), ("title", .str "Fair"),
    ("category", .str "Festivals"), ("date", .str "2025-06-02"), ("time", .str "10:00"),
    ("location", .str "Park"), ("description", .str "Spring fair")]

/-- Ann's event `A`: approved, on 2025-06-02. -/
def eventA : Obj :=
  [("id", .str "a"), ("status", .str "approved"), ("title", .str "Fair"),
    ("date", .str "2025-06-02"), ("time", .str "10:00"), ("location", .str "Park"),
    ("userId", .str "u1")]

/-- Ann's event `B`: pending, on 2025-06-02. -/
def eventB : Obj :=
  [("id", .str "b"), ("status", .str "pending"), ("title", .str "Class"),
    ("date", .str "2025-06-02"), ("time", .str "12:00"), ("location", .str "Hall"),
    ("userId", .str "u1")]

/-- Ann's event `C`: approved, on 2025-06-01. -/
def eventC : Obj :=
  [("id", .str "c"), ("status", .str "approved"), ("title", .str "Match"),
    ("date", .str "2025-06-01"), ("time", .str "15:00"), ("location", .str "Field"),
    ("userId", .str "u1")]

/-- Ann's event `D`: approved, on 2025-06-02. -/
def eventD : Obj :=
  [("id", .str "d"), ("status", .str "approved"), ("title", .str "Sale"),
    ("date", .str "2025-06-02"), ("time", .str "09:00"), ("location", .str "Garage"),
    ("userId", .str "u1")]

/-- Ann's event `A` with a title that has no string form: approved, on
2025-06-02. -/
def eventOdd : Obj :=
  [("id", .str "a"), ("status", .str "approved"),
    ("title", .obj [("toString", .num "1")]),
    ("date", .str "2025-06-02"), ("time", .str "10:00"), ("location", .str "Park"),
    ("userId", .str "u1")]

/-- A user whose e-mail is truthy and has no string form. -/
def zed : Obj :=
  [("id", .str "u3"), ("name", .str "Zed"), ("email", .obj [("toString", .num "1")])]

/-- Zed's event: approved, on 2025-06-02. -/
def eventZ : Obj :=
  [("id", .str "z"), ("status", .str "approved"), ("title", .str "Fair"),
    ("date", .str "2025-06-02"), ("time", .str "10:00"), ("location", .str "Park"),
    ("userId", .str "u3")]

/-- The fields of a form body for Ann whose time has no string form. -/
def oddTimeFields : Obj :=
  [("title", .str "Fair"), ("category", .str "Festivals"),
    ("date", .str "2025-06-02"), ("time", .obj [("toString", .num "1")]),
    ("location", .str "Park"), ("description", .str "Spring fair"),
    ("userId", .str "u1")]

/-- A transport that rejects its first `sendMail` and delivers every later one. -/
def failFirst : Transport Nat :=
  ⟨fun n _ => (n != 0, n + 1)⟩

/-- The fields of the form body of Ann's event. -/
def annFields : Obj :=
  [("title", .str "Fair"), ("category", .str "Festivals"),
    ("date", .str "2025-06-02"), ("time", .str "10:00"), ("location", .str "Park"),
    ("description", .str "Spring fair"), ("userId", .str "u1")]

/-- A second user, without flags. -/
def carl : Obj :=
  [("id", .str "u2"), ("name", .str "Carl"), ("email", .str "carl@example.org")]

/-- The files with Ann and Carl as users and no events. -/
def twoUsers : Server.Disk :=
  ⟨some [], some [ann, carl], []⟩

/-- Every file unreadable. -/
def lostDisk : Server.Disk :=
  ⟨none, none, []⟩

/-- An interest submission for nobody, with no contact fields. -/
def emptyInterest : Json :=
  .obj [("people", .num "0")]

/-- An interest submission. -/
def bobInterest : Json :=
  .obj [("name", .str "Bob"), ("email", .str "bob@example.org"),
    ("phone", .str "555-0100"), ("people", .num "2")]

/-- The files after Ann has submitted her event, minted as `e1`. -/
def annDisk : Server.Disk :=
  (Server.postEvents freshDisk "e1" annFairBody).2

/-- A transport whose every `sendMail` has the same outcome. -/
def always (ok : Bool) : Transport Unit :=
  ⟨fun _ _ => (ok, ())⟩

end Sample

/-! ## Lemmas on objects and arrays -/

theorem getProp_setProp_same (o : Obj) (k : String) (v : Json) :
    getProp (setProp o k v) k = some v := by
  induction o with
  | nil => simp [setProp, getProp]
  | cons p rest ih =>
    obtain ⟨k', v'⟩ := p
    by_cases h : k' = k
    · simp [setProp, getProp, h]
    · simp [setProp, getProp, h, ih]

theorem getProp_setProp_ne (o : Obj) (k k' : String) (v : Json) (h : k ≠ k') :
    getProp (setProp o k v) k' = getProp o k' := by
  induction o with
  | nil => simp [setProp, getProp, h]
  | cons p rest ih =>
    obtain ⟨k₁, v₁⟩ := p
    by_cases h₁ : k₁ = k
    · subst h₁
      simp [setProp, getProp, h]
    · by_cases h₂ : k₁ = k'
      · subst h₂
        simp [setProp, getProp, h₁]
      · simp [setProp, getProp, h₁, h₂, ih]

theorem setProp_setProp_same (o : Obj) (k : String) (v w : Json) :
    setProp (setProp o k v) k w = setProp o k w := by
  induction o with
  | nil => simp [setProp]
  | cons p rest ih =>
    obtain ⟨k', v'⟩ := p
    by_cases h : k' = k
    · simp [setProp, h]
    · simp [setProp, h, ih]

theorem getProp_assign_of_absent (src : List (String × Json)) (o : Obj) (k : String)
    (h : ∀ p ∈ src, p.1 ≠ k) : getProp (assign o src) k = getProp o k := by
  induction src generalizing o with
  | nil => rfl
  | cons p rest ih =>
    have hp : p.1 ≠ k := h p (List.mem_cons_self _ _)
    have hrest : ∀ q ∈ rest, q.1 ≠ k := fun q hq => h q (List.mem_cons_of_mem _ hq)
    show getProp (assign (setProp o p.1 p.2) rest) k = getProp o k
    rw [ih _ hrest, getProp_setProp_ne _ _ _ _ hp]

theorem absent_of_not_carries (body : Json) (k : String) (h : carries body k = false) :
    ∀ p ∈ body.entries, p.1 ≠ k := by
  intro p hp hk
  have : carries body k = true := by
    simp only [carries, List.any_eq_true]
    exact ⟨p, hp, by simp [hk]⟩
  simp [h] at this

theorem findIndex_eq_none {α : Type} (p : α → Bool) (l : List α)
    (h : ∀ x ∈ l, p x = false) : findIndex p l = none := by
  induction l with
  | nil => rfl
  | cons x xs ih =>
    have hx : p x = false := h x (List.mem_cons_self _ _)
    have hxs : ∀ y ∈ xs, p y = false := fun y hy => h y (List.mem_cons_of_mem _ hy)
    simp [findIndex, hx, ih hxs]

theorem findFirst_eq_none {α : Type} (p : α → Bool) (l : List α)
    (h : ∀ x ∈ l, p x = false) : findFirst p l = none := by
  induction l with
  | nil => rfl
  | cons x xs ih =>
    have hx : p x = false := h x (List.mem_cons_self _ _)
    have hxs : ∀ y ∈ xs, p y = false := fun y hy => h y (List.mem_cons_of_mem _ hy)
    simp [findFirst, hx, ih hxs]

/-- An element that satisfies `p` makes `findIndex` succeed, at an index that holds
the element `find` returns; that element satisfies `p`. -/
theorem findIndex_of_mem {α : Type} (p : α → Bool) (dflt : α) (l : List α)
    (h : ∃ x ∈ l, p x = true) :
    ∃ i, findIndex p l = some i ∧ i < l.length ∧ p (l.getD i dflt) = true
      ∧ findFirst p l = some (l.getD i dflt) := by
  induction l with
  | nil => obtain ⟨x, hx, _⟩ := h; cases hx
  | cons y ys ih =>
    by_cases hy : p y = true
    · exact ⟨0, by simp [findIndex, hy], by simp, by simpa using hy, by simp [findFirst, hy]⟩
    · have hys : ∃ x ∈ ys, p x = true := by
        obtain ⟨x, hx, hpx⟩ := h
        rcases List.mem_cons.mp hx with rfl | hx
        · exact absurd hpx hy
        · exact ⟨x, hx, hpx⟩
      obtain ⟨i, hi, hlt, hpi, hf⟩ := ih hys
      refine ⟨i + 1, by simp [findIndex, hy, hi], by simpa using hlt, by simpa using hpi, ?_⟩
      simpa [findFirst, hy] using hf

/-- Overwriting the found slot with an element that satisfies `p` keeps the slot
the first match, and `find` now returns the new element. -/
theorem findIndex_set {α : Type} (p : α → Bool) (l : List α) (i : Nat) (y : α)
    (h : findIndex p l = some i) (hy : p y = true) :
    findIndex p (l.set i y) = some i ∧ findFirst p (l.set i y) = some y := by
  induction l generalizing i with
  | nil => simp [findIndex] at h
  | cons x xs ih =>
    by_cases hx : p x = true
    · simp [findIndex, hx] at h
      subst h
      simp [findIndex, findFirst, hy]
    · simp only [findIndex, hx] at h
      cases hfi : findIndex p xs with
      | none => simp [hfi] at h
      | some j =>
        simp [hfi] at h
        subst h
        obtain ⟨h₁, h₂⟩ := ih j hfi
        simp [findIndex, findFirst, hx, h₁, h₂]

theorem getD_set_same {α : Type} (l : List α) (i : Nat) (y dflt : α) (h : i < l.length) :
    (l.set i y).getD i dflt = y := by
  simp [List.getD, h]


/-! ## The PATCH handler on an event that exists -/

theorem patchEvent_found {σ : Type} (t : Transport σ) (m : σ) (d : Server.Disk)
    (id : String) (body : Json) (idx : Nat)
    (h : findIndex (hasId id) (Server.readData d.events) = some idx) :
    (Server.patchEvent t m d id body).response = ⟨200, .json (.obj (mergedAt d idx body))⟩
      ∧ (Server.patchEvent t m d id body).disk
        = { d with events := some ((Server.readData d.events).set idx (mergedAt d idx body)) } := by
  unfold Server.patchEvent
  simp only [h, mergedAt, Server.writeData]
  split
  · split <;> exact ⟨rfl, rfl⟩
  · exact ⟨rfl, rfl⟩

theorem patchEvent_attempts {σ : Type} (t : Transport σ) (m : σ) (d : Server.Disk)
    (id : String) (body : Json) (idx : Nat)
    (h : findIndex (hasId id) (Server.readData d.events) = some idx) :
    (Server.patchEvent t m d id body).attempts
      = if truthy (organizerEmail (Server.readData d.users) (mergedAt d idx body))
            && truthy (body.get "status") then
          match Server.statusMail (organizerEmail (Server.readData d.users) (mergedAt d idx body))
              (getProp (mergedAt d idx body) "title") (body.get "status") with
          | some mail => [(mail, (t.sendMail m mail).1)]
          | none => []
        else [] := by
  unfold Server.patchEvent
  simp only [h, mergedAt, Server.sendEventStatusEmail]
  split
  · cases Server.statusMail
        (organizerEmail (Server.readData d.users)
          (assign ((Server.readData d.events).getD idx []) body.entries))
        (getProp (assign ((Server.readData d.events).getD idx []) body.entries) "title")
        (body.get "status") <;> rfl
  · rfl

theorem statusMail_of_forms (recipient eventTitle status : Option Json) (title st : String)
    (ht : interpolate eventTitle = some title) (hs : interpolate status = some st) :
    Server.statusMail recipient eventTitle status
      = some { sender := "\"Community Events\" <your.email@gmail.com>"
               recipient := recipient
               subject := "Event \"" ++ title ++ "\" " ++ st
               text := "Hello,\n\nYour event \"" ++ title ++ "\" has been " ++ st
                 ++ ".\n\nThanks." } := by
  simp only [Server.statusMail, ht, hs]

/-! ## Create -/

/-- C1, as stated, fails.  On `server.js` a body that carries the six form fields
and a status is stored with the status of the body, not with pending; on
`server.js` the created event of the plain form body has no `interests` field; on
`index.js` it has no `status` field. -/
theorem C1_create_counterexample :
    hasRequiredFields Sample.approvedFairBody = true
    ∧ (Server.postEvents Sample.freshDisk "e1" Sample.approvedFairBody).1.event
      = some [("id", .str "e1"), ("status", .str "approved"), ("title", .str "Fair"),
          ("category", .str "Festivals"), ("date", .str "2025-06-02"),
          ("time", .str "10:00"), ("location", .str "Park"),
          ("description", .str "Spring fair")]
    ∧ ((Server.postEvents Sample.freshDisk "e1" Sample.approvedFairBody).1.event.bind
        (fun e => getProp e "status")) ≠ some (.str "pending")
    ∧ hasRequiredFields Sample.fairBody = true
    ∧ ((Server.postEvents Sample.freshDisk "e1" Sample.fairBody).1.event.bind
        (fun e => getProp e "interests")) = none
    ∧ ((Index.postEvents (some []) "e1" Sample.fairBody).1.event.bind
        (fun e => getProp e "status")) = none := by
  refine ⟨by decide, rfl, ?_, by decide, rfl, rfl⟩
  have h : ((Server.postEvents Sample.freshDisk "e1" Sample.approvedFairBody).1.event.bind
      (fun e => getProp e "status")) = some (.str "approved") := rfl
  rw [h]
  simp

/-- C1, amended.  For a body with the form fields and no `id`, `status` or
`interests` property of its own, Create answers 201 with the event it appended.
On `server.js` that event has status pending and the minted id, and no `interests`
field; the interest files are left as they were.  On `index.js` it has interests
`[]` and the minted id, and no `status` field. -/
theorem C1_create_defaults (d : Server.Disk) (data : List Obj) (uuid : String)
    (body : Json) (_hreq : hasRequiredFields body = true)
    (hid : carries body "id" = false) (hst : carries body "status" = false)
    (hin : carries body "interests" = false) :
    (∃ e, Server.postEvents d uuid body
          = (⟨201, .json (.obj e)⟩,
              { d with events := some (Server.readData d.events ++ [e]) })
        ∧ getProp e "status" = some (.str "pending")
        ∧ getProp e "id" = some (.str uuid)
        ∧ getProp e "interests" = none)
    ∧ (∃ e, Index.postEvents (some data) uuid body
          = (⟨201, .json (.obj e)⟩, some (data ++ [e]))
        ∧ getProp e "interests" = some (.arr [])
        ∧ getProp e "id" = some (.str uuid)
        ∧ getProp e "status" = none) := by
  have hid' := absent_of_not_carries body "id" hid
  have hst' := absent_of_not_carries body "status" hst
  have hin' := absent_of_not_carries body "interests" hin
  refine ⟨⟨_, rfl, ?_, ?_, ?_⟩, ⟨_, rfl, ?_, ?_, ?_⟩⟩
  · rw [getProp_assign_of_absent _ _ _ hst']; rfl
  · rw [getProp_assign_of_absent _ _ _ hid']; simp [getProp]
  · rw [getProp_assign_of_absent _ _ _ hin']; rfl
  · rw [getProp_assign_of_absent _ _ _ hin']; rfl
  · rw [getProp_assign_of_absent _ _ _ hid']; simp [getProp]
  · rw [getProp_assign_of_absent _ _ _ hst']; rfl

theorem C1_create_defaults_witness :
    hasRequiredFields Sample.fairBody = true
    ∧ carries Sample.fairBody "id" = false
    ∧ (∃ e, Server.postEvents Sample.freshDisk "e1" Sample.fairBody
          = (⟨201, .json (.obj e)⟩,
              { Sample.freshDisk with
                events := some (Server.readData Sample.freshDisk.events ++ [e]) })
        ∧ getProp e "status" = some (.str "pending")
        ∧ getProp e "id" = some (.str "e1")
        ∧ getProp e "interests" = none) :=
  ⟨by decide, by decide,
    (C1_create_defaults Sample.freshDisk [] "e1" Sample.fairBody
      (by decide) (by decide) (by decide) (by decide)).1⟩


/-! ## Transition -/

theorem hasId_setProp_status (id : String) (e : Obj) (v : Json) :
    hasId id (setProp e "status" v) = hasId id e := by
  unfold hasId
  rw [getProp_setProp_ne e "status" "id" v (by decide)]

/-- C2.  On an event that exists, whatever its status, PATCH with body
`{status: s}` for a status `s` of the data model answers 200 with an event whose
status is `s`; the event stored under the id is that event; and the same PATCH
applied again, with any transport, answers the same and leaves the files as the
first application left them. -/
theorem C2_transition_sets_status {σ : Type} (t : Transport σ) (m : σ)
    (d : Server.Disk) (id : String) (s : Status)
    (h : ∃ e ∈ Server.readData d.events, hasId id e = true) :
    ∃ e', (Server.patchEvent t m d id (.obj [("status", s.toJson)])).response
          = ⟨200, .json (.obj e')⟩
      ∧ getProp e' "status" = some s.toJson
      ∧ (∃ events', (Server.patchEvent t m d id (.obj [("status", s.toJson)])).disk.events
            = some events'
          ∧ findFirst (hasId id) events' = some e')
      ∧ ∀ (τ : Type) (t' : Transport τ) (m' : τ),
          (Server.patchEvent t' m'
              (Server.patchEvent t m d id (.obj [("status", s.toJson)])).disk id
              (.obj [("status", s.toJson)])).disk
            = (Server.patchEvent t m d id (.obj [("status", s.toJson)])).disk
          ∧ (Server.patchEvent t' m'
              (Server.patchEvent t m d id (.obj [("status", s.toJson)])).disk id
              (.obj [("status", s.toJson)])).response
            = ⟨200, .json (.obj e')⟩ := by
  obtain ⟨idx, hidx, hlt, hp, _⟩ := findIndex_of_mem (hasId id) [] _ h
  obtain ⟨hres, hdisk⟩ := patchEvent_found t m d id (.obj [("status", s.toJson)]) idx hidx
  have hmerged : mergedAt d idx (.obj [("status", s.toJson)])
      = setProp ((Server.readData d.events).getD idx []) "status" s.toJson := rfl
  have hpm : hasId id (mergedAt d idx (.obj [("status", s.toJson)])) = true := by
    rw [hmerged, hasId_setProp_status]; exact hp
  obtain ⟨hidx', hfirst⟩ := findIndex_set (hasId id) _ idx _ hidx hpm
  refine ⟨_, hres, ?_, ⟨_, by rw [hdisk], hfirst⟩, ?_⟩
  · rw [hmerged]; exact getProp_setProp_same _ _ _
  · intro τ t' m'
    have hidx₂ : findIndex (hasId id) (Server.readData
        (Server.patchEvent t m d id (.obj [("status", s.toJson)])).disk.events) = some idx := by
      rw [hdisk]; exact hidx'
    obtain ⟨hres₂, hdisk₂⟩ := patchEvent_found t' m' _ id (.obj [("status", s.toJson)]) idx hidx₂
    have hagain : mergedAt (Server.patchEvent t m d id (.obj [("status", s.toJson)])).disk idx
        (.obj [("status", s.toJson)]) = mergedAt d idx (.obj [("status", s.toJson)]) := by
      rw [hdisk]
      show setProp (((Server.readData d.events).set idx _).getD idx []) "status" s.toJson = _
      rw [getD_set_same _ _ _ _ hlt, hmerged, setProp_setProp_same]
    rw [hres₂, hdisk₂, hagain]
    refine ⟨?_, rfl⟩
    rw [hdisk]
    simp [Server.readData]

/-- C2 at a stored pending event: approving it. -/
theorem C2_transition_sets_status_witness :
    (∃ e ∈ Server.readData (Server.postEvents Sample.freshDisk "e1" Sample.fairBody).2.events,
        hasId "e1" e = true)
    ∧ ∃ e', (Server.patchEvent (Sample.always true) ()
            (Server.postEvents Sample.freshDisk "e1" Sample.fairBody).2 "e1"
            (.obj [("status", Status.approved.toJson)])).response = ⟨200, .json (.obj e')⟩
        ∧ getProp e' "status" = some Status.approved.toJson :=
  ⟨⟨_, List.mem_singleton.mpr rfl, by decide⟩,
    (C2_transition_sets_status (Sample.always true) ()
      (Server.postEvents Sample.freshDisk "e1" Sample.fairBody).2 "e1" Status.approved
      ⟨_, List.mem_singleton.mpr rfl, by decide⟩).imp (fun _ h => ⟨h.1, h.2.1⟩)⟩

/-- C3.  For an id that no stored event has, PATCH with any body and GET both
answer 404, leave every file as it was, and PATCH calls `sendMail` not at all
(GET has no access to the transport). -/
theorem C3_not_found {σ : Type} (t : Transport σ) (m : σ) (d : Server.Disk)
    (id : String) (body : Json)
    (h : ∀ e ∈ Server.readData d.events, hasId id e = false) :
    (Server.patchEvent t m d id body).response
        = ⟨404, .json (.obj [("message", .str "Event not found")])⟩
      ∧ (Server.patchEvent t m d id body).disk = d
      ∧ (Server.patchEvent t m d id body).attempts = []
      ∧ (Server.patchEvent t m d id body).mailer = m
      ∧ Server.getEventById d id
        = (⟨404, .json (.obj [("message", .str "Event not found")])⟩, d) := by
  have hi := findIndex_eq_none (hasId id) _ h
  have hf := findFirst_eq_none (hasId id) _ h
  unfold Server.patchEvent Server.getEventById
  simp [hi, hf]

/-- C3 at a store that holds one event, asked for another id. -/
theorem C3_not_found_witness :
    (∀ e ∈ Server.readData (Server.postEvents Sample.freshDisk "e1" Sample.fairBody).2.events,
        hasId "e2" e = false)
    ∧ (Server.patchEvent (Sample.always true) ()
          (Server.postEvents Sample.freshDisk "e1" Sample.fairBody).2 "e2"
          Sample.approvedFairBody).attempts = []
    ∧ Server.getEventById (Server.postEvents Sample.freshDisk "e1" Sample.fairBody).2 "e2"
        = (⟨404, .json (.obj [("message", .str "Event not found")])⟩,
            (Server.postEvents Sample.freshDisk "e1" Sample.fairBody).2) :=
  have hyp : ∀ e ∈ Server.readData
      (Server.postEvents Sample.freshDisk "e1" Sample.fairBody).2.events,
      hasId "e2" e = false := by
    intro e he
    rw [List.mem_singleton.mp he]
    decide
  ⟨hyp,
    (C3_not_found (Sample.always true) ()
      (Server.postEvents Sample.freshDisk "e1" Sample.fairBody).2 "e2"
      Sample.approvedFairBody hyp).2.2.1,
    (C3_not_found (Sample.always true) ()
      (Server.postEvents Sample.freshDisk "e1" Sample.fairBody).2 "e2"
      Sample.approvedFairBody hyp).2.2.2.2⟩


/-! ## Status notification -/

/-- C4, as stated, fails.  Ann's pending event exists and Ann has an e-mail
address.  A PATCH whose body supplies the status value `""` stores that status
and calls `sendMail` not at all.  So does a PATCH whose body supplies the
status value `{"toString": 1}`, which is truthy: the subject cannot be written
and the function ends before the send. -/
theorem C4_status_mail_counterexample :
    (∃ e ∈ Server.readData Sample.annDisk.events, hasId "e1" e = true)
    ∧ (Json.obj [("status", .str "")]).get "status" = some (.str "")
    ∧ (∃ e', (Server.patchEvent (Sample.always true) () Sample.annDisk "e1"
            (.obj [("status", .str "")])).response = ⟨200, .json (.obj e')⟩
        ∧ getProp e' "status" = some (.str "")
        ∧ organizerEmail (Server.readData Sample.annDisk.users) e'
            = some (.str "ann@example.org"))
    ∧ (Server.patchEvent (Sample.always true) () Sample.annDisk "e1"
          (.obj [("status", .str "")])).attempts = []
    ∧ truthy ((Json.obj [("status", .obj [("toString", .num "1")])]).get "status") = true
    ∧ (∃ e', (Server.patchEvent (Sample.always true) () Sample.annDisk "e1"
            (.obj [("status", .obj [("toString", .num "1")])])).response
          = ⟨200, .json (.obj e')⟩
        ∧ getProp e' "status" = some (.obj [("toString", .num "1")])
        ∧ truthy (organizerEmail (Server.readData Sample.annDisk.users) e') = true)
    ∧ (Server.patchEvent (Sample.always true) () Sample.annDisk "e1"
          (.obj [("status", .obj [("toString", .num "1")])])).attempts = [] :=
  ⟨⟨_, List.mem_singleton.mpr rfl, by decide⟩, rfl, ⟨_, rfl, rfl, rfl⟩, rfl,
    rfl, ⟨_, rfl, rfl, rfl⟩, rfl⟩

/-- C4, amended.  Take a PATCH on an event that exists (the first with the id,
at `idx`) in which the title of the merged event and the status of the body
have a string form.  It calls `sendMail` if and only if the status value of the
body is truthy (there, and not `null`, `false`, `0` or `""`) and the first user
whose id strictly equals the `userId` of the merged event has a truthy e-mail.
It is then one call, addressed to that e-mail, with subject
`Event "<title>" <status>` from the string forms of the title of the merged
event and of the status of the body.  The stored status plays no part, so a
status equal to the stored one is notified again. -/
theorem C4_status_mail {σ : Type} (t : Transport σ) (m : σ) (d : Server.Disk)
    (id : String) (body : Json) (idx : Nat)
    (hidx : findIndex (hasId id) (Server.readData d.events) = some idx)
    (htitle : hasStringForm (getProp (mergedAt d idx body) "title") = true)
    (hstatus : hasStringForm (body.get "status") = true) :
    (Server.patchEvent t m d id body).response = ⟨200, .json (.obj (mergedAt d idx body))⟩
      ∧ ((Server.patchEvent t m d id body).attempts ≠ []
          ↔ truthy (body.get "status") = true
            ∧ truthy (organizerEmail (Server.readData d.users) (mergedAt d idx body)) = true)
      ∧ (truthy (body.get "status") = true
          → truthy (organizerEmail (Server.readData d.users) (mergedAt d idx body)) = true
          → ∃ mail ok title st,
              (Server.patchEvent t m d id body).attempts = [(mail, ok)]
              ∧ mail.recipient = organizerEmail (Server.readData d.users) (mergedAt d idx body)
              ∧ interpolate (getProp (mergedAt d idx body) "title") = some title
              ∧ interpolate (body.get "status") = some st
              ∧ mail.subject = "Event \"" ++ title ++ "\" " ++ st) := by
  obtain ⟨hres, _⟩ := patchEvent_found t m d id body idx hidx
  have hatt := patchEvent_attempts t m d id body idx hidx
  obtain ⟨title, ht⟩ := Option.isSome_iff_exists.mp htitle
  obtain ⟨st, hs⟩ := Option.isSome_iff_exists.mp hstatus
  have hmail := statusMail_of_forms
    (organizerEmail (Server.readData d.users) (mergedAt d idx body))
    (getProp (mergedAt d idx body) "title") (body.get "status") title st ht hs
  rw [hmail] at hatt
  refine ⟨hres, ?_, ?_⟩
  · rw [hatt]
    by_cases hst : truthy (body.get "status") = true
    · by_cases he : truthy (organizerEmail (Server.readData d.users) (mergedAt d idx body)) = true
      · simp [hst, he]
      · simp [hst, he]
    · simp [hst]
  · intro hst he
    rw [hatt]
    simp only [hst, he, Bool.and_self, if_true]
    exact ⟨_, _, title, st, rfl, rfl, ht, hs, rfl⟩

/-- C4 at Ann's pending event: approving it sends her one mail, and so does
approving it a second time. -/
theorem C4_status_mail_witness :
    findIndex (hasId "e1") (Server.readData Sample.annDisk.events) = some 0
    ∧ hasStringForm (getProp (mergedAt Sample.annDisk 0 (.obj [("status", .str "approved")]))
        "title") = true
    ∧ ((Server.patchEvent (Sample.always true) () Sample.annDisk "e1"
            (.obj [("status", .str "approved")])).attempts ≠ []
          ↔ truthy ((Json.obj [("status", .str "approved")]).get "status") = true
            ∧ truthy (organizerEmail (Server.readData Sample.annDisk.users)
                (mergedAt Sample.annDisk 0 (.obj [("status", .str "approved")]))) = true)
    ∧ (Server.patchEvent (Sample.always true) ()
          (Server.patchEvent (Sample.always true) () Sample.annDisk "e1"
            (.obj [("status", .str "approved")])).disk "e1"
          (.obj [("status", .str "approved")])).attempts.map (fun a => a.1.subject)
        = ["Event \"Fair\" approved"] :=
  ⟨by decide, by decide,
    (C4_status_mail (Sample.always true) () Sample.annDisk "e1"
      (.obj [("status", .str "approved")]) 0 (by decide) (by decide) (by decide)).2.1,
    by decide⟩

/-- C5.  On an event that exists, the response of PATCH (200 with the merged
event) and the files it leaves are the same for any two transports, whatever
each `sendMail` returns: the merged event is stored and answered also when the
send is rejected. -/
theorem C5_send_failure_isolated {σ τ : Type} (t : Transport σ) (m : σ)
    (t' : Transport τ) (m' : τ) (d : Server.Disk) (id : String) (body : Json)
    (h : ∃ e ∈ Server.readData d.events, hasId id e = true) :
    ∃ merged events', merged ∈ events'
      ∧ (Server.patchEvent t m d id body).response = ⟨200, .json (.obj merged)⟩
      ∧ (Server.patchEvent t' m' d id body).response = ⟨200, .json (.obj merged)⟩
      ∧ (Server.patchEvent t m d id body).disk = { d with events := some events' }
      ∧ (Server.patchEvent t' m' d id body).disk = { d with events := some events' } := by
  obtain ⟨idx, hidx, hlt, _, _⟩ := findIndex_of_mem (hasId id) [] _ h
  obtain ⟨hres, hdisk⟩ := patchEvent_found t m d id body idx hidx
  obtain ⟨hres', hdisk'⟩ := patchEvent_found t' m' d id body idx hidx
  exact ⟨_, _, List.mem_iff_get.mpr ⟨⟨idx, by simpa using hlt⟩, by simp⟩,
    hres, hres', hdisk, hdisk'⟩

/-- C5 at Ann's pending event, approved once over a transport that delivers and
once over one that rejects: the two runs differ in the outcome of the send
only. -/
theorem C5_send_failure_isolated_witness :
    (∃ e ∈ Server.readData Sample.annDisk.events, hasId "e1" e = true)
    ∧ (Server.patchEvent (Sample.always true) () Sample.annDisk "e1"
          (.obj [("status", .str "approved")])).attempts.map (fun a => a.2) = [true]
    ∧ (Server.patchEvent (Sample.always false) () Sample.annDisk "e1"
          (.obj [("status", .str "approved")])).attempts.map (fun a => a.2) = [false]
    ∧ ∃ merged events', merged ∈ events'
      ∧ (Server.patchEvent (Sample.always true) () Sample.annDisk "e1"
          (.obj [("status", .str "approved")])).response = ⟨200, .json (.obj merged)⟩
      ∧ (Server.patchEvent (Sample.always false) () Sample.annDisk "e1"
          (.obj [("status", .str "approved")])).response = ⟨200, .json (.obj merged)⟩
      ∧ (Server.patchEvent (Sample.always true) () Sample.annDisk "e1"
          (.obj [("status", .str "approved")])).disk
        = { Sample.annDisk with events := some events' }
      ∧ (Server.patchEvent (Sample.always false) () Sample.annDisk "e1"
          (.obj [("status", .str "approved")])).disk
        = { Sample.annDisk with events := some events' } :=
  ⟨⟨_, List.mem_singleton.mpr rfl, by decide⟩, rfl, rfl,
    C5_send_failure_isolated (Sample.always true) () (Sample.always false) ()
      Sample.annDisk "e1" (.obj [("status", .str "approved")])
      ⟨_, List.mem_singleton.mpr rfl, by decide⟩⟩


/-! ## Delete -/

theorem filter_not_hasId_twice (id : String) (l : List Obj) :
    (l.filter (fun e => !hasId id e)).filter (fun e => !hasId id e)
      = l.filter (fun e => !hasId id e) := by
  rw [List.filter_filter]
  congr 1
  funext e
  simp

/-- C6.  DELETE answers 204 for every id, stored or not, on both backends.  The
events it writes back are the events read, in their order, without those that
have the id: none with the id is left, each one without the id is kept as it
was.  DELETE of the same id on the result answers 204 again and leaves the files
as they are. -/
theorem C6_delete_idempotent (d : Server.Disk) (data : List Obj) (id : String) :
    ((Server.deleteEvent d id).1 = ⟨204, .empty⟩
      ∧ (∃ kept, (Server.deleteEvent d id).2 = { d with events := some kept }
          ∧ kept = (Server.readData d.events).filter (fun e => !hasId id e)
          ∧ (∀ e, e ∈ kept ↔ e ∈ Server.readData d.events ∧ hasId id e = false)
          ∧ List.Sublist kept (Server.readData d.events))
      ∧ Server.deleteEvent (Server.deleteEvent d id).2 id
          = (⟨204, .empty⟩, (Server.deleteEvent d id).2))
    ∧ ((Index.deleteEvent (some data) id).1 = ⟨204, .empty⟩
      ∧ (∃ kept, (Index.deleteEvent (some data) id).2 = some kept
          ∧ kept = data.filter (fun e => !hasId id e)
          ∧ (∀ e, e ∈ kept ↔ e ∈ data ∧ hasId id e = false)
          ∧ List.Sublist kept data)
      ∧ Index.deleteEvent (Index.deleteEvent (some data) id).2 id
          = (⟨204, .empty⟩, (Index.deleteEvent (some data) id).2)) := by
  refine ⟨⟨rfl, ⟨_, rfl, rfl, ?_, List.filter_sublist _⟩, ?_⟩,
    ⟨rfl, ⟨_, rfl, rfl, ?_, List.filter_sublist _⟩, ?_⟩⟩
  · intro e; simp [List.mem_filter]
  · simp only [Server.deleteEvent, Server.writeData, Server.readData,
      filter_not_hasId_twice]
  · intro e; simp [List.mem_filter]
  · simp only [Index.deleteEvent, filter_not_hasId_twice]

/-! ## Register -/

/-- C7 on `server.js`: the handler never looks at the events.  With no event
stored, a Register for the id `ghost` answers 201 and creates the interest file
of that id, holding the submission.  On `index.js` the same request answers 404
and writes nothing. -/
theorem C7_register_unknown_event :
    (∀ e ∈ Server.readData Sample.freshDisk.events, hasId "ghost" e = false)
    ∧ Server.interestFile Sample.freshDisk.interests "ghost" = none
    ∧ Server.postInterest Sample.freshDisk "ghost" Sample.bobInterest
        = (⟨201, .json (.obj [("message", .str "Interest saved")])⟩,
            { Sample.freshDisk with interests := [("ghost", [Sample.bobInterest])] })
    ∧ Index.postInterest (some []) "ghost" Sample.bobInterest
        = (⟨404, .text "Event not found"⟩, some []) :=
  ⟨fun _ he => (List.not_mem_nil _ he).elim, rfl, rfl, rfl⟩


theorem interestFile_write_same (files : List (String × List Json)) (id : String)
    (data : List Json) :
    Server.interestFile (Server.writeInterestFile files id data) id = some data := by
  induction files with
  | nil => simp [Server.writeInterestFile, Server.interestFile]
  | cons p rest ih =>
    obtain ⟨k, v⟩ := p
    by_cases h : k = id
    · simp [Server.writeInterestFile, Server.interestFile, h]
    · simp [Server.writeInterestFile, Server.interestFile, h, ih]

theorem server_registerAll (id : String) (bodies : List Json) (d : Server.Disk) :
    (Server.registerAll d id bodies).1.map (fun r => r.status) = bodies.map (fun _ => 201)
      ∧ Server.readData (Server.interestFile (Server.registerAll d id bodies).2.interests id)
        = Server.readData (Server.interestFile d.interests id) ++ bodies := by
  induction bodies generalizing d with
  | nil => simp [Server.registerAll]
  | cons b rest ih =>
    obtain ⟨h₁, h₂⟩ := ih (Server.postInterest d id b).2
    refine ⟨by simpa [Server.registerAll, Server.postInterest] using h₁, ?_⟩
    show Server.readData (Server.interestFile
      (Server.registerAll (Server.postInterest d id b).2 id rest).2.interests id) = _
    rw [h₂]
    simp [Server.postInterest, interestFile_write_same, Server.readData]

theorem findIndex_of_findFirst {α : Type} (p : α → Bool) (dflt : α) (l : List α) (e : α)
    (h : findFirst p l = some e) :
    ∃ i, findIndex p l = some i ∧ l.getD i dflt = e ∧ p e = true := by
  induction l with
  | nil => simp [findFirst] at h
  | cons x xs ih =>
    by_cases hx : p x = true
    · simp [findFirst, hx] at h
      subst h
      exact ⟨0, by simp [findIndex, hx], by simp, hx⟩
    · simp only [findFirst, hx] at h
      obtain ⟨i, hi, hg, hp⟩ := ih (by simpa using h)
      exact ⟨i + 1, by simp [findIndex, hx, hi], by simpa using hg, hp⟩

theorem index_postInterest_step (data : List Obj) (id : String) (body : Json) (e : Obj)
    (xs : List Json) (he : findFirst (hasId id) data = some e)
    (hxs : getProp e "interests" = some (.arr xs)) :
    ∃ data' e', Index.postInterest (some data) id body
          = (⟨201, .text "Interest registered"⟩, some data')
      ∧ findFirst (hasId id) data' = some e'
      ∧ getProp e' "interests" = some (.arr (xs ++ [body])) := by
  obtain ⟨idx, hidx, hget, hp⟩ := findIndex_of_findFirst (hasId id) [] data e he
  have hp' : hasId id (setProp e "interests" (.arr (xs ++ [body]))) = true := by
    unfold hasId at hp ⊢
    rw [getProp_setProp_ne e "interests" "id" _ (by decide)]
    exact hp
  refine ⟨data.set idx (setProp e "interests" (.arr (xs ++ [body]))), _, ?_,
    (findIndex_set (hasId id) data idx _ hidx hp').2, getProp_setProp_same _ _ _⟩
  unfold Index.postInterest
  simp only [hidx, hget, hxs]

theorem index_registerAll (id : String) (bodies : List Json) (data : List Obj) (e : Obj)
    (xs : List Json) (he : findFirst (hasId id) data = some e)
    (hxs : getProp e "interests" = some (.arr xs)) :
    (Index.registerAll (some data) id bodies).1.map (fun r => r.status)
        = bodies.map (fun _ => 201)
      ∧ ∃ data' e', (Index.registerAll (some data) id bodies).2 = some data'
        ∧ findFirst (hasId id) data' = some e'
        ∧ getProp e' "interests" = some (.arr (xs ++ bodies)) := by
  induction bodies generalizing data e xs with
  | nil => exact ⟨rfl, data, e, rfl, he, by simpa using hxs⟩
  | cons b rest ih =>
    obtain ⟨data₁, e₁, hstep, he₁, hxs₁⟩ := index_postInterest_step data id b e xs he hxs
    obtain ⟨h₁, data₂, e₂, h₂, he₂, hxs₂⟩ := ih data₁ e₁ (xs ++ [b]) he₁ hxs₁
    refine ⟨?_, data₂, e₂, ?_, he₂, by simpa using hxs₂⟩
    · simp only [Index.registerAll, hstep, List.map_cons, h₁]
    · simp only [Index.registerAll, hstep, h₂]

/-- C8.  Register requests for one event, one after the other, all answer 201 and
leave the stored interests of that event equal to the interests stored before
followed by the submissions in request order: each request adds its body at the
end, nothing is dropped, moved or merged.  From empty interests, `n` requests
leave exactly the `n` submissions.  On `server.js` the interests are the file of
the event id; on `index.js` they are the `interests` array of the stored event. -/
theorem C8_interests_append_only (d : Server.Disk) (data : List Obj) (id : String)
    (e : Obj) (xs bodies : List Json)
    (he : findFirst (hasId id) data = some e)
    (hxs : getProp e "interests" = some (.arr xs)) :
    ((Server.registerAll d id bodies).1.map (fun r => r.status) = bodies.map (fun _ => 201)
      ∧ Server.readData (Server.interestFile (Server.registerAll d id bodies).2.interests id)
        = Server.readData (Server.interestFile d.interests id) ++ bodies)
    ∧ ((Index.registerAll (some data) id bodies).1.map (fun r => r.status)
        = bodies.map (fun _ => 201)
      ∧ ∃ data' e', (Index.registerAll (some data) id bodies).2 = some data'
        ∧ findFirst (hasId id) data' = some e'
        ∧ getProp e' "interests" = some (.arr (xs ++ bodies))) :=
  ⟨server_registerAll id bodies d, index_registerAll id bodies data e xs he hxs⟩

/-- C8 at a fresh event with empty interests: the same submission registered
twice is stored twice. -/
theorem C8_interests_append_only_witness :
    (findFirst (hasId "e1") [Sample.indexFair] = some Sample.indexFair
      ∧ getProp Sample.indexFair "interests" = some (.arr []))
    ∧ Server.readData (Server.interestFile
        (Server.registerAll Sample.freshDisk "e1"
          [Sample.bobInterest, Sample.bobInterest]).2.interests "e1")
      = [] ++ [Sample.bobInterest, Sample.bobInterest]
    ∧ ∃ data' e', (Index.registerAll (some [Sample.indexFair]) "e1"
          [Sample.bobInterest, Sample.bobInterest]).2 = some data'
        ∧ findFirst (hasId "e1") data' = some e'
        ∧ getProp e' "interests"
          = some (.arr ([] ++ [Sample.bobInterest, Sample.bobInterest])) :=
  ⟨⟨rfl, rfl⟩,
    (C8_interests_append_only Sample.freshDisk [Sample.indexFair] "e1" Sample.indexFair []
      [Sample.bobInterest, Sample.bobInterest] rfl rfl).1.2,
    (C8_interests_append_only Sample.freshDisk [Sample.indexFair] "e1" Sample.indexFair []
      [Sample.bobInterest, Sample.bobInterest] rfl rfl).2.2⟩


/-! ## Reminder job -/

theorem strictEq_str (x : Option Json) (s : String) :
    strictEq x (some (.str s)) = true ↔ x = some (.str s) := by
  cases x with
  | none => simp [strictEq]
  | some v => cases v <;> simp [strictEq]

theorem isDueTomorrow_iff (tomorrow : String) (e : Obj) :
    Server.isDueTomorrow tomorrow e = true
      ↔ getProp e "status" = some (.str "approved")
        ∧ getProp e "date" = some (.str tomorrow) := by
  simp [Server.isDueTomorrow, strictEq_str]

/-- The reminder of an event whose four fields have a string form can be
written. -/
theorem reminderMail_of_forms (recipient : Option Json) (e : Obj)
    (title date location time : String)
    (h₁ : interpolate (getProp e "title") = some title)
    (h₂ : interpolate (getProp e "date") = some date)
    (h₃ : interpolate (getProp e "location") = some location)
    (h₄ : interpolate (getProp e "time") = some time) :
    Server.reminderMail recipient e
      = some { sender := "\"Community Events\" <your.email@gmail.com>"
               recipient := recipient
               subject := "Reminder: \"" ++ title ++ "\" is happening tomorrow!"
               text := "Hello,\n\nThis is a reminder that your event \"" ++ title
                 ++ "\" is scheduled for tomorrow (" ++ date ++ ").\n\nLocation: "
                 ++ location ++ "\nTime: " ++ time ++ "\n\nBest of luck!" } := by
  simp only [Server.reminderMail, h₁, h₂, h₃, h₄]

theorem reminderMail_of_ready (users : List Obj) (e : Obj)
    (h : reminderReady users e = true) :
    (∃ mail, Server.reminderMail (organizerEmail users e) e = some mail)
      ∧ ∃ form, interpolate (organizerEmail users e) = some form := by
  simp only [reminderReady, hasStringForm, Bool.and_eq_true] at h
  obtain ⟨⟨⟨⟨h₁, h₂⟩, h₃⟩, h₄⟩, h₅⟩ := h
  obtain ⟨title, h₁⟩ := Option.isSome_iff_exists.mp h₁
  obtain ⟨date, h₂⟩ := Option.isSome_iff_exists.mp h₂
  obtain ⟨location, h₃⟩ := Option.isSome_iff_exists.mp h₃
  obtain ⟨time, h₄⟩ := Option.isSome_iff_exists.mp h₄
  exact ⟨⟨_, reminderMail_of_forms _ e title date location time h₁ h₂ h₃ h₄⟩,
    Option.isSome_iff_exists.mp h₅⟩

/-- The mails the loop hands to `sendMail` do not depend on the transport. -/
theorem remindAll_mails_indep {σ τ : Type} (t : Transport σ) (t' : Transport τ)
    (users : List Obj) (events : List Obj) (m : σ) (m' : τ) :
    (Server.remindAll t users m events).1.map (fun a => a.1)
      = (Server.remindAll t' users m' events).1.map (fun a => a.1) := by
  induction events generalizing m m' with
  | nil => rfl
  | cons e rest ih =>
    by_cases h : truthy (organizerEmail users e) = true
    · cases hm : Server.reminderMail (organizerEmail users e) e with
      | none => simp [Server.remindAll, h, hm]
      | some mail =>
        cases hi : interpolate (organizerEmail users e) with
        | none => simp [Server.remindAll, h, hm, hi]
        | some form =>
          simp only [Server.remindAll, h, hm, hi, if_true, List.map_cons]
          rw [ih (t.sendMail m mail).2 (t'.sendMail m' mail).2]
    · simp only [Server.remindAll, h]
      exact ih m m'

/-- When every event with an organizer e-mail is ready, the loop hands one
reminder per such event to `sendMail`, in the order of the events. -/
theorem remindAll_mails {σ : Type} (t : Transport σ) (users : List Obj)
    (events : List Obj) (m : σ)
    (hready : ∀ e ∈ events, truthy (organizerEmail users e) = true →
      reminderReady users e = true) :
    (Server.remindAll t users m events).1.map (fun a => a.1)
      = events.filterMap (fun e =>
          if truthy (organizerEmail users e) then
            Server.reminderMail (organizerEmail users e) e
          else none) := by
  induction events generalizing m with
  | nil => rfl
  | cons e rest ih =>
    have hrest : ∀ x ∈ rest, truthy (organizerEmail users x) = true →
        reminderReady users x = true := fun x hx => hready x (List.mem_cons_of_mem _ hx)
    by_cases h : truthy (organizerEmail users e) = true
    · obtain ⟨⟨mail, hm⟩, form, hi⟩ :=
        reminderMail_of_ready users e (hready e (List.mem_cons_self _ _) h)
      simp [Server.remindAll, h, hm, hi, ih _ hrest]
    · simp [Server.remindAll, h, ih _ hrest]

theorem reminderJob_mails {σ : Type} (t : Transport σ) (m : σ) (d : Server.Disk)
    (tomorrow : String)
    (hready : ∀ e ∈ Server.readData d.events, Server.isDueTomorrow tomorrow e = true →
      truthy (organizerEmail (Server.readData d.users) e) = true →
      reminderReady (Server.readData d.users) e = true) :
    (Server.reminderJob t m d tomorrow).attempts.map (fun a => a.1)
      = specReminders (Server.readData d.users) tomorrow (Server.readData d.events) := by
  simp only [Server.reminderJob, specReminders]
  apply remindAll_mails
  intro e he
  exact hready e (List.mem_filter.mp he).1 (List.mem_filter.mp he).2

theorem specReminders_length (users : List Obj) (tomorrow : String) (events : List Obj)
    (hready : ∀ e ∈ events, Server.isDueTomorrow tomorrow e = true →
      truthy (organizerEmail users e) = true → reminderReady users e = true) :
    (specReminders users tomorrow events).length
      = (events.filter (fun e =>
          Server.isDueTomorrow tomorrow e && truthy (organizerEmail users e))).length := by
  unfold specReminders
  induction events with
  | nil => rfl
  | cons e rest ih =>
    have ih' := ih (fun x hx => hready x (List.mem_cons_of_mem _ hx))
    by_cases h₁ : Server.isDueTomorrow tomorrow e = true
    · by_cases h₂ : truthy (organizerEmail users e) = true
      · obtain ⟨⟨mail, hm⟩, _⟩ :=
          reminderMail_of_ready users e (hready e (List.mem_cons_self _ _) h₁ h₂)
        simp [List.filter_cons, List.filterMap_cons, h₁, h₂, hm, ih']
      · simp [List.filter_cons, List.filterMap_cons, h₁, h₂, ih']
    · simp [List.filter_cons, h₁, ih']

theorem mem_specReminders (users : List Obj) (tomorrow : String) (events : List Obj)
    (e : Obj) (mail : Mail) (he : e ∈ events)
    (hdue : Server.isDueTomorrow tomorrow e = true)
    (hmail : truthy (organizerEmail users e) = true)
    (hm : Server.reminderMail (organizerEmail users e) e = some mail) :
    mail ∈ specReminders users tomorrow events := by
  unfold specReminders
  rw [List.mem_filterMap]
  exact ⟨e, List.mem_filter.mpr ⟨he, hdue⟩, by simp [hmail, hm]⟩

/-- C9, as stated, fails.  Of two events of Ann that are approved and due
tomorrow, the first has the title `{"toString": 1}`: its subject cannot be
written, the run ends there, and no reminder is attempted, neither for it nor
for the second event. -/
theorem C9_reminder_selection_counterexample :
    [Sample.eventOdd, Sample.eventD].filter (Server.isDueTomorrow "2025-06-02")
      = [Sample.eventOdd, Sample.eventD]
    ∧ organizerEmail [Sample.ann] Sample.eventOdd = some (.str "ann@example.org")
    ∧ organizerEmail [Sample.ann] Sample.eventD = some (.str "ann@example.org")
    ∧ interpolate (getProp Sample.eventOdd "title") = none
    ∧ (Server.reminderJob (Sample.always true) ()
        ⟨some [Sample.eventOdd, Sample.eventD], some [Sample.ann], []⟩
        "2025-06-02").attempts = [] :=
  ⟨rfl, rfl, rfl, rfl, rfl⟩

/-- C9, amended.  A run of the reminder job selects an event exactly when its
status is `approved` and its date is the string `tomorrow`: of `A` (approved,
tomorrow), `B` (pending, tomorrow) and `C` (approved, another day) it selects
`A` only; the files are left as they were.  When the title, date, location and
time of every selected event whose organizer has a truthy e-mail, and that
e-mail, have a string form, the mails it hands to `sendMail` are, in the order
of the events, one reminder for each selected event whose organizer (the first
user whose id strictly equals the `userId` of the event) has a truthy e-mail,
addressed to that e-mail, and nothing else. -/
theorem C9_reminder_selection {σ : Type} (t : Transport σ) (m : σ) (d : Server.Disk)
    (tomorrow today : String) (A B C : Obj)
    (hA : getProp A "status" = some (.str "approved")
      ∧ getProp A "date" = some (.str tomorrow))
    (hB : getProp B "status" = some (.str "pending")
      ∧ getProp B "date" = some (.str tomorrow))
    (hC : getProp C "status" = some (.str "approved")
      ∧ getProp C "date" = some (.str today))
    (hne : today ≠ tomorrow) :
    (∀ e, Server.isDueTomorrow tomorrow e = true
        ↔ getProp e "status" = some (.str "approved")
          ∧ getProp e "date" = some (.str tomorrow))
    ∧ (Server.reminderJob t m d tomorrow).disk = d
    ∧ [A, B, C].filter (Server.isDueTomorrow tomorrow) = [A]
    ∧ ((∀ e ∈ Server.readData d.events, Server.isDueTomorrow tomorrow e = true →
          truthy (organizerEmail (Server.readData d.users) e) = true →
          reminderReady (Server.readData d.users) e = true) →
        (Server.reminderJob t m d tomorrow).attempts.map (fun a => a.1)
            = specReminders (Server.readData d.users) tomorrow (Server.readData d.events)
          ∧ (Server.reminderJob t m d tomorrow).attempts.length
            = ((Server.readData d.events).filter (fun e =>
                Server.isDueTomorrow tomorrow e
                  && truthy (organizerEmail (Server.readData d.users) e))).length
          ∧ ∀ mail ∈ (Server.reminderJob t m d tomorrow).attempts.map (fun a => a.1),
              ∃ e ∈ Server.readData d.events, Server.isDueTomorrow tomorrow e = true
                ∧ truthy (organizerEmail (Server.readData d.users) e) = true
                ∧ Server.reminderMail (organizerEmail (Server.readData d.users) e) e
                  = some mail
                ∧ mail.recipient = organizerEmail (Server.readData d.users) e)
    ∧ ((truthy (organizerEmail (Server.readData d.users) A) = true →
          reminderReady (Server.readData d.users) A = true) →
        (Server.reminderJob t m ⟨some [A, B, C], d.users, d.interests⟩ tomorrow).attempts.map
            (fun a => a.1)
          = if truthy (organizerEmail (Server.readData d.users) A) then
              (Server.reminderMail (organizerEmail (Server.readData d.users) A) A).toList
            else []) := by
  have hdA : Server.isDueTomorrow tomorrow A = true := (isDueTomorrow_iff _ _).mpr hA
  have hdB : Server.isDueTomorrow tomorrow B = false := by
    rw [Bool.eq_false_iff]
    intro h
    have h' := ((isDueTomorrow_iff _ _).mp h).1
    rw [hB.1] at h'
    simp at h'
  have hdC : Server.isDueTomorrow tomorrow C = false := by
    rw [Bool.eq_false_iff]
    intro h
    have h' := ((isDueTomorrow_iff _ _).mp h).2
    rw [hC.2] at h'
    simp at h'
    exact hne h'
  have hsel : [A, B, C].filter (Server.isDueTomorrow tomorrow) = [A] := by
    simp [List.filter_cons, hdA, hdB, hdC]
  refine ⟨isDueTomorrow_iff tomorrow, rfl, hsel, ?_, ?_⟩
  · intro hready
    have hmails := reminderJob_mails t m d tomorrow hready
    refine ⟨hmails, ?_, ?_⟩
    · rw [← specReminders_length _ _ _ hready, ← hmails, List.length_map]
    · intro mail hmem
      rw [hmails] at hmem
      unfold specReminders at hmem
      obtain ⟨e, he, hm⟩ := List.mem_filterMap.mp hmem
      obtain ⟨he₁, he₂⟩ := List.mem_filter.mp he
      by_cases htr : truthy (organizerEmail (Server.readData d.users) e) = true
      · simp only [htr, if_true] at hm
        refine ⟨e, he₁, he₂, htr, hm, ?_⟩
        simp only [Server.reminderMail] at hm
        split at hm
        · simp only [Option.some.injEq] at hm
          rw [← hm]
        · cases hm
      · simp [htr] at hm
  · intro hAready
    have hready' : ∀ e ∈ Server.readData
        (⟨some [A, B, C], d.users, d.interests⟩ : Server.Disk).events,
        Server.isDueTomorrow tomorrow e = true →
        truthy (organizerEmail (Server.readData d.users) e) = true →
        reminderReady (Server.readData d.users) e = true := by
      intro e he hdue htr
      have he' : e ∈ [A, B, C] := he
      simp only [List.mem_cons, List.mem_singleton, List.not_mem_nil, or_false] at he'
      rcases he' with rfl | rfl | rfl
      · exact hAready htr
      · rw [hdB] at hdue; cases hdue
      · rw [hdC] at hdue; cases hdue
    rw [reminderJob_mails t m ⟨some [A, B, C], d.users, d.interests⟩ tomorrow hready']
    show specReminders (Server.readData d.users) tomorrow [A, B, C] = _
    unfold specReminders
    rw [hsel]
    by_cases h : truthy (organizerEmail (Server.readData d.users) A) = true
    · cases hm : Server.reminderMail (organizerEmail (Server.readData d.users) A) A <;>
        simp [h, hm]
    · simp [h]

/-- C9 at the events `A`, `B`, `C` of Ann with tomorrow = 2025-06-02: one mail,
the reminder for `A`, to Ann. -/
theorem C9_reminder_selection_witness :
    (getProp Sample.eventA "status" = some (.str "approved")
      ∧ getProp Sample.eventA "date" = some (.str "2025-06-02"))
    ∧ ("2025-06-01" : String) ≠ "2025-06-02"
    ∧ reminderReady [Sample.ann] Sample.eventA = true
    ∧ [Sample.eventA, Sample.eventB, Sample.eventC].filter
        (Server.isDueTomorrow "2025-06-02") = [Sample.eventA]
    ∧ (Server.reminderJob (Sample.always true) ()
          ⟨some [Sample.eventA, Sample.eventB, Sample.eventC], some [Sample.ann], []⟩
          "2025-06-02").attempts.map (fun a => a.1)
        = (if truthy (organizerEmail [Sample.ann] Sample.eventA) then
            (Server.reminderMail (organizerEmail [Sample.ann] Sample.eventA)
              Sample.eventA).toList
          else [])
    ∧ (Server.reminderJob (Sample.always true) ()
          ⟨some [Sample.eventA, Sample.eventB, Sample.eventC], some [Sample.ann], []⟩
          "2025-06-02").attempts.map (fun a => (a.1.recipient, a.1.subject))
        = [(some (.str "ann@example.org"), "Reminder: \"Fair\" is happening tomorrow!")] :=
  ⟨⟨rfl, rfl⟩, by decide, by decide,
    (C9_reminder_selection (Sample.always true) () Sample.freshDisk "2025-06-02" "2025-06-01"
      Sample.eventA Sample.eventB Sample.eventC
      ⟨rfl, rfl⟩ ⟨rfl, rfl⟩ ⟨rfl, rfl⟩ (by decide)).2.2.1,
    (C9_reminder_selection (Sample.always true) () Sample.freshDisk "2025-06-02" "2025-06-01"
      Sample.eventA Sample.eventB Sample.eventC
      ⟨rfl, rfl⟩ ⟨rfl, rfl⟩ ⟨rfl, rfl⟩ (by decide)).2.2.2.2 (fun _ => by decide),
    rfl⟩

/-- C10, as stated, fails.  Zed's event and Ann's event `D` are both approved and
due tomorrow, and both organizers have a truthy e-mail; Zed's is the value
`{"toString": 1}`.  The send for Zed's event is made and rejected; the log line
of the `catch` cannot be written, the run ends there, and the send for `D` is
not attempted. -/
theorem C10_reminder_isolation_counterexample :
    [Sample.eventZ, Sample.eventD].filter (Server.isDueTomorrow "2025-06-02")
      = [Sample.eventZ, Sample.eventD]
    ∧ truthy (organizerEmail [Sample.zed, Sample.ann] Sample.eventZ) = true
    ∧ organizerEmail [Sample.zed, Sample.ann] Sample.eventD = some (.str "ann@example.org")
    ∧ (Server.reminderJob (Sample.always false) ()
        ⟨some [Sample.eventZ, Sample.eventD], some [Sample.zed, Sample.ann], []⟩
        "2025-06-02").attempts.map (fun a => (a.1.recipient, a.1.subject, a.2))
      = [(some (.obj [("toString", .num "1")]),
          "Reminder: \"Fair\" is happening tomorrow!", false)] :=
  ⟨rfl, rfl, rfl, rfl⟩

/-- C10, amended.  The mails a run of the reminder job hands to `sendMail`, and
their order, are the same for any two transports, whatever each send returns: a
rejected send is caught.  When the title, date, location and time of every
selected event whose organizer has a truthy e-mail, and that e-mail, have a
string form, the reminder for every stored event `D` that is due tomorrow and
whose organizer has a truthy e-mail is attempted, also when the sends before it
were rejected. -/
theorem C10_reminder_isolation {σ τ : Type} (t : Transport σ) (m : σ)
    (t' : Transport τ) (m' : τ) (d : Server.Disk) (tomorrow : String) :
    (Server.reminderJob t m d tomorrow).attempts.map (fun a => a.1)
        = (Server.reminderJob t' m' d tomorrow).attempts.map (fun a => a.1)
      ∧ ((∀ e ∈ Server.readData d.events, Server.isDueTomorrow tomorrow e = true →
            truthy (organizerEmail (Server.readData d.users) e) = true →
            reminderReady (Server.readData d.users) e = true) →
          ∀ D ∈ Server.readData d.events, Server.isDueTomorrow tomorrow D = true →
            truthy (organizerEmail (Server.readData d.users) D) = true →
            ∃ mail,
              Server.reminderMail (organizerEmail (Server.readData d.users) D) D = some mail
              ∧ mail ∈ (Server.reminderJob t m d tomorrow).attempts.map (fun a => a.1)) := by
  refine ⟨remindAll_mails_indep t t' _ _ m m', ?_⟩
  intro hready D hD hdue hmail
  obtain ⟨⟨mail, hm⟩, _⟩ := reminderMail_of_ready _ D (hready D hD hdue hmail)
  refine ⟨mail, hm, ?_⟩
  rw [reminderJob_mails t m d tomorrow hready]
  exact mem_specReminders _ _ _ D mail hD hdue hmail hm

/-- C10 at the events `A` and `D` of Ann, both due, over a transport that rejects
the first send: the send for `A` fails, the send for `D` is made and
delivered. -/
theorem C10_reminder_isolation_witness :
    (Server.reminderJob Sample.failFirst 0
        ⟨some [Sample.eventA, Sample.eventD], some [Sample.ann], []⟩
        "2025-06-02").attempts.map (fun a => (a.1.subject, a.2))
      = [("Reminder: \"Fair\" is happening tomorrow!", false),
          ("Reminder: \"Sale\" is happening tomorrow!", true)]
    ∧ (Server.reminderJob Sample.failFirst 0
          ⟨some [Sample.eventA, Sample.eventD], some [Sample.ann], []⟩
          "2025-06-02").attempts.map (fun a => a.1)
        = (Server.reminderJob (Sample.always true) ()
            ⟨some [Sample.eventA, Sample.eventD], some [Sample.ann], []⟩
            "2025-06-02").attempts.map (fun a => a.1)
    ∧ ∃ mail, Server.reminderMail (organizerEmail [Sample.ann] Sample.eventD) Sample.eventD
          = some mail
        ∧ mail ∈ (Server.reminderJob Sample.failFirst 0
            ⟨some [Sample.eventA, Sample.eventD], some [Sample.ann], []⟩
            "2025-06-02").attempts.map (fun a => a.1) :=
  ⟨rfl,
    (C10_reminder_isolation Sample.failFirst 0 (Sample.always true) ()
      ⟨some [Sample.eventA, Sample.eventD], some [Sample.ann], []⟩ "2025-06-02").1,
    (C10_reminder_isolation Sample.failFirst 0 (Sample.always true) ()
      ⟨some [Sample.eventA, Sample.eventD], some [Sample.ann], []⟩ "2025-06-02").2
      (by
        intro e he _ _
        have he' : e ∈ [Sample.eventA, Sample.eventD] := he
        simp only [List.mem_cons, List.mem_singleton, List.not_mem_nil, or_false] at he'
        rcases he' with rfl | rfl <;> decide)
      Sample.eventD (List.mem_cons_of_mem _ (List.mem_singleton.mpr rfl))
      (by decide) (by decide)⟩

/-! ## End to end -/

theorem absent_of_getProp_none (o : Obj) (k : String) (h : getProp o k = none) :
    ∀ p ∈ o, p.1 ≠ k := by
  induction o with
  | nil => intro p hp; cases hp
  | cons q rest ih =>
    obtain ⟨k', v'⟩ := q
    by_cases hk : k' = k
    · simp [getProp, hk] at h
    · simp only [getProp, hk, if_false] at h
      intro p hp
      rcases List.mem_cons.mp hp with rfl | hp
      · exact hk
      · exact ih h p hp

/-- With distinct keys in the source, a spread leaves the value the source has. -/
theorem getProp_assign_of_nodup (src : List (String × Json)) (o : Obj) (k : String)
    (v : Json) (hnd : (src.map Prod.fst).Nodup) (h : getProp src k = some v) :
    getProp (assign o src) k = some v := by
  induction src generalizing o with
  | nil => simp [getProp] at h
  | cons p rest ih =>
    obtain ⟨k', v'⟩ := p
    have hnd' := List.nodup_cons.mp hnd
    show getProp (assign (setProp o k' v') rest) k = some v
    by_cases hk : k' = k
    · subst hk
      simp only [getProp, if_true, Option.some.injEq] at h
      subst h
      have habs : ∀ q ∈ rest, q.1 ≠ k' := by
        intro q hq hqk
        exact hnd'.1 (List.mem_map.mpr ⟨q, hq, hqk⟩)
      rw [getProp_assign_of_absent _ _ _ habs, getProp_setProp_same]
    · simp only [getProp, hk, if_false] at h
      exact ih _ hnd'.2 h

theorem map_eq_singleton {α β : Type} (f : α → β) (l : List α) (b : β)
    (h : l.map f = [b]) : ∃ a, l = [a] ∧ f a = b := by
  match l, h with
  | [a], h => exact ⟨a, rfl, by simpa using h⟩


theorem getProp_assign_nodup_eq (src : List (String × Json)) (o : Obj) (k : String)
    (hnd : (src.map Prod.fst).Nodup) (ho : getProp o k = none) :
    getProp (assign o src) k = getProp src k := by
  cases h : getProp src k with
  | none => rw [getProp_assign_of_absent _ _ _ (absent_of_getProp_none src k h), ho]
  | some v => exact getProp_assign_of_nodup src o k v hnd h

/-- The loop on one event with an organizer e-mail whose reminder can be written
makes exactly one send. -/
theorem remindAll_single {σ : Type} (t : Transport σ) (users : List Obj) (m : σ)
    (e : Obj) (mail : Mail) (htr : truthy (organizerEmail users e) = true)
    (hm : Server.reminderMail (organizerEmail users e) e = some mail) :
    ∃ ok, (Server.remindAll t users m [e]).1 = [(mail, ok)] := by
  cases hi : interpolate (organizerEmail users e) with
  | none => exact ⟨(t.sendMail m mail).1, by simp [Server.remindAll, htr, hm, hi]⟩
  | some form => exact ⟨(t.sendMail m mail).1, by simp [Server.remindAll, htr, hm, hi]⟩

/-- C11, as stated, fails.  With no events and Ann as user, Create an event of
Ann dated tomorrow whose time is `{"toString": 1}`, approve it (answered 200) and
run the reminder job: the text of the reminder cannot be written, and no
reminder is attempted. -/
theorem C11_end_to_end_counterexample :
    getProp Sample.oddTimeFields "date" = some (.str "2025-06-02")
    ∧ getProp Sample.oddTimeFields "userId" = some (.str "u1")
    ∧ getProp Sample.ann "id" = some (.str "u1")
    ∧ getProp Sample.ann "email" = some (.str "ann@example.org")
    ∧ (Server.patchEvent (Sample.always true) ()
        (Server.postEvents ⟨some [], some [Sample.ann], []⟩ "e1"
          (.obj Sample.oddTimeFields)).2 "e1"
        (.obj [("status", .str "approved")])).response.status = 200
    ∧ (createApproveRemind (Sample.always true) () ⟨some [], some [Sample.ann], []⟩ "e1"
        (.obj Sample.oddTimeFields) "2025-06-02").attempts = [] :=
  ⟨rfl, rfl, rfl, rfl, rfl, rfl⟩

/-- C11, amended.  Start with no events and a user `u` who is the user found for
the id `uid` and has a truthy e-mail.  Create an event from a body with distinct
keys, no `id`, date tomorrow, `userId` equal to `uid`, and a title, a location
and a time that have a string form; PATCH the minted id to approved (answered
200); run the reminder job.  The job makes exactly one `sendMail` call,
addressed to the e-mail of `u`, and the text of the mail contains the string
forms of the title and of the location. -/
theorem C11_end_to_end {σ : Type} (t : Transport σ) (m : σ) (users : List Obj)
    (files : List (String × List Json)) (u : Obj) (email : Json)
    (uid uuid tomorrow title location : String) (fields : Obj)
    (hu : findFirst (hasId uid) users = some u)
    (hemail : getProp u "email" = some email) (htruthy : truthy (some email) = true)
    (hkeys : (fields.map Prod.fst).Nodup) (hid : getProp fields "id" = none)
    (hdate : getProp fields "date" = some (.str tomorrow))
    (huser : getProp fields "userId" = some (.str uid))
    (htitle : interpolate (getProp fields "title") = some title)
    (hloc : interpolate (getProp fields "location") = some location)
    (htime : hasStringForm (getProp fields "time") = true) :
    (Server.patchEvent t m (Server.postEvents ⟨some [], some users, files⟩ uuid
        (.obj fields)).2 uuid (.obj [("status", .str "approved")])).response.status = 200
    ∧ ∃ mail ok,
        (createApproveRemind t m ⟨some [], some users, files⟩ uuid (.obj fields)
          tomorrow).attempts = [(mail, ok)]
      ∧ mail.recipient = some email
      ∧ ∃ pre mid post, mail.text = pre ++ title ++ mid ++ location ++ post := by
  -- the created event
  have hEid : getProp (assign [("id", .str uuid), ("status", .str "pending")] fields) "id"
      = some (.str uuid) := by
    rw [getProp_assign_of_absent _ _ _ (absent_of_getProp_none fields "id" hid)]
    simp [getProp]
  have hidx : findIndex (hasId uuid) (Server.readData
      (Server.postEvents ⟨some [], some users, files⟩ uuid (.obj fields)).2.events)
      = some 0 := by
    simp [Server.postEvents, Server.readData, Server.writeData, Json.entries, findIndex,
      hasId, hEid, strictEq]
  obtain ⟨hres, hdisk⟩ := patchEvent_found t m _ uuid (.obj [("status", .str "approved")]) 0 hidx
  have hmerged : mergedAt (Server.postEvents ⟨some [], some users, files⟩ uuid
      (.obj fields)).2 0 (.obj [("status", .str "approved")])
      = setProp (assign [("id", .str uuid), ("status", .str "pending")] fields)
          "status" (.str "approved") := rfl
  rw [hmerged] at hres hdisk
  -- the merged event, read by the reminder job
  have hMstatus := getProp_setProp_same
    (assign [("id", .str uuid), ("status", .str "pending")] fields) "status" (.str "approved")
  have hM : ∀ k, "status" ≠ k → "id" ≠ k →
      getProp (setProp (assign [("id", .str uuid), ("status", .str "pending")] fields)
        "status" (.str "approved")) k = getProp fields k := by
    intro k hk hk'
    rw [getProp_setProp_ne _ _ _ _ hk]
    exact getProp_assign_nodup_eq fields _ k hkeys (by simp [getProp, hk, hk'])
  have hdue : Server.isDueTomorrow tomorrow
      (setProp (assign [("id", .str uuid), ("status", .str "pending")] fields)
        "status" (.str "approved")) = true :=
    (isDueTomorrow_iff _ _).mpr
      ⟨hMstatus, by rw [hM "date" (by decide) (by decide)]; exact hdate⟩
  have howner : ownsEvent
      (setProp (assign [("id", .str uuid), ("status", .str "pending")] fields)
        "status" (.str "approved")) = hasId uid := by
    funext x
    simp only [ownsEvent, hasId, hM "userId" (by decide) (by decide), huser]
  have horg : organizerEmail users
      (setProp (assign [("id", .str uuid), ("status", .str "pending")] fields)
        "status" (.str "approved")) = some email := by
    simp only [organizerEmail, howner, hu, Option.bind, hemail]
  obtain ⟨time, htime'⟩ := Option.isSome_iff_exists.mp htime
  have hmail := reminderMail_of_forms (some email)
    (setProp (assign [("id", .str uuid), ("status", .str "pending")] fields)
      "status" (.str "approved")) title tomorrow location time
    (by rw [hM "title" (by decide) (by decide)]; exact htitle)
    (by rw [hM "date" (by decide) (by decide), hdate]; rfl)
    (by rw [hM "location" (by decide) (by decide)]; exact hloc)
    (by rw [hM "time" (by decide) (by decide)]; exact htime')
  have hrun : (createApproveRemind t m ⟨some [], some users, files⟩ uuid (.obj fields)
      tomorrow).attempts
      = (Server.remindAll t users
          (Server.patchEvent t m (Server.postEvents ⟨some [], some users, files⟩ uuid
            (.obj fields)).2 uuid (.obj [("status", .str "approved")])).mailer
          [setProp (assign [("id", .str uuid), ("status", .str "pending")] fields)
            "status" (.str "approved")]).1 := by
    show (Server.reminderJob t _ _ tomorrow).attempts = _
    simp only [Server.reminderJob]
    rw [hdisk]
    simp [Server.readData, Server.postEvents, Server.writeData, List.filter_cons, hdue]
  obtain ⟨ok, hok⟩ := remindAll_single t users
    (Server.patchEvent t m (Server.postEvents ⟨some [], some users, files⟩ uuid
      (.obj fields)).2 uuid (.obj [("status", .str "approved")])).mailer
    _ _ (by rw [horg]; exact htruthy) (by rw [horg]; exact hmail)
  refine ⟨by rw [hres], _, ok, by rw [hrun, hok], rfl, ?_⟩
  exact ⟨"Hello,\n\nThis is a reminder that your event \"",
    "\" is scheduled for tomorrow (" ++ tomorrow ++ ").\n\nLocation: ",
    "\nTime: " ++ time ++ "\n\nBest of luck!", by simp only [String.append_assoc]⟩

/-- C11 with Ann as the user, her fair as the event and tomorrow = 2025-06-02:
one reminder, to Ann. -/
theorem C11_end_to_end_witness :
    (findFirst (hasId "u1") [Sample.ann] = some Sample.ann
      ∧ (Sample.annFields.map Prod.fst).Nodup
      ∧ getProp Sample.annFields "id" = none
      ∧ hasStringForm (getProp Sample.annFields "time") = true)
    ∧ (createApproveRemind (Sample.always true) () ⟨some [], some [Sample.ann], []⟩ "e1"
          (.obj Sample.annFields) "2025-06-02").attempts.map (fun a => a.1.recipient)
        = [some (.str "ann@example.org")]
    ∧ ∃ mail ok,
        (createApproveRemind (Sample.always true) () ⟨some [], some [Sample.ann], []⟩ "e1"
          (.obj Sample.annFields) "2025-06-02").attempts = [(mail, ok)]
      ∧ mail.recipient = some (.str "ann@example.org")
      ∧ ∃ pre mid post, mail.text = pre ++ "Fair" ++ mid ++ "Park" ++ post :=
  ⟨⟨rfl, by decide, rfl, by decide⟩, rfl,
    (C11_end_to_end (Sample.always true) () [Sample.ann] [] Sample.ann
      (.str "ann@example.org") "u1" "e1" "2025-06-02" "Fair" "Park" Sample.annFields
      rfl rfl rfl (by decide) rfl rfl rfl rfl rfl (by decide)).2⟩

/-! ## Validation -/

/-- C12, as stated, fails.  The empty body lacks every form field, and Create
answers 201 and stores the event made of the defaults alone, on both backends. -/
theorem C12_create_validation_counterexample :
    hasRequiredFields (.obj []) = false
    ∧ Server.postEvents Sample.freshDisk "e1" (.obj [])
        = (⟨201, .json (.obj [("id", .str "e1"), ("status", .str "pending")])⟩,
            { Sample.freshDisk with
              events := some [[("id", .str "e1"), ("status", .str "pending")]] })
    ∧ Index.postEvents (some []) "e1" (.obj [])
        = (⟨201, .json (.obj [("id", .str "e1"), ("interests", .arr [])])⟩,
            some [[("id", .str "e1"), ("interests", .arr [])]]) :=
  ⟨by decide, rfl, rfl⟩

/-- C12, amended.  Create checks nothing: for every body, with the form fields or
without, it answers 201 and appends the event built from the body to the stored
events, on both backends.  So a body with the six fields and no `userId` is
accepted. -/
theorem C12_create_accepts_every_body (d : Server.Disk) (data : List Obj) (uuid : String)
    (body : Json) :
    (∃ e, Server.postEvents d uuid body
        = (⟨201, .json (.obj e)⟩,
            { d with events := some (Server.readData d.events ++ [e]) }))
    ∧ (∃ e, Index.postEvents (some data) uuid body
        = (⟨201, .json (.obj e)⟩, some (data ++ [e]))) :=
  ⟨⟨_, rfl⟩, ⟨_, rfl⟩⟩

/-- C13, as stated, fails.  A submission with `people` 0 and no contact field,
for an event that exists, is answered 201 and stored, on both backends. -/
theorem C13_register_validation_counterexample :
    (∃ e ∈ Server.readData Sample.annDisk.events, hasId "e1" e = true)
    ∧ Server.postInterest Sample.annDisk "e1" Sample.emptyInterest
        = (⟨201, .json (.obj [("message", .str "Interest saved")])⟩,
            { Sample.annDisk with interests := [("e1", [.obj [("people", .num "0")]])] })
    ∧ findFirst (hasId "e1") [Sample.indexFair] = some Sample.indexFair
    ∧ Index.postInterest (some [Sample.indexFair]) "e1" Sample.emptyInterest
        = (⟨201, .text "Interest registered"⟩,
            some [setProp Sample.indexFair "interests" (.arr [.obj [("people", .num "0")]])]) :=
  ⟨⟨_, List.mem_singleton.mpr rfl, by decide⟩, rfl, rfl, rfl⟩

/-- C13, amended.  Register checks nothing in the submission.  On `server.js`
every submission is answered 201 and added at the end of the interest file of the
id.  On `index.js` every submission for a stored event whose `interests` is an
array is answered 201 and added at the end of that array.  The `people` count
and the contact fields play no part. -/
theorem C13_register_accepts_every_body (d : Server.Disk) (data : List Obj)
    (id : String) (body : Json) (e : Obj) (xs : List Json)
    (he : findFirst (hasId id) data = some e)
    (hxs : getProp e "interests" = some (.arr xs)) :
    ((Server.postInterest d id body).1
        = ⟨201, .json (.obj [("message", .str "Interest saved")])⟩
      ∧ Server.readData (Server.interestFile (Server.postInterest d id body).2.interests id)
        = Server.readData (Server.interestFile d.interests id) ++ [body]
      ∧ (Server.postInterest d id body).2.events = d.events)
    ∧ ∃ data' e', Index.postInterest (some data) id body
          = (⟨201, .text "Interest registered"⟩, some data')
      ∧ findFirst (hasId id) data' = some e'
      ∧ getProp e' "interests" = some (.arr (xs ++ [body])) := by
  refine ⟨⟨rfl, ?_, rfl⟩, index_postInterest_step data id body e xs he hxs⟩
  simp [Server.postInterest, interestFile_write_same, Server.readData]

/-- C13 at the stored fair: the submission for nobody is stored. -/
theorem C13_register_accepts_every_body_witness :
    (findFirst (hasId "e1") [Sample.indexFair] = some Sample.indexFair
      ∧ getProp Sample.indexFair "interests" = some (.arr []))
    ∧ ∃ data' e', Index.postInterest (some [Sample.indexFair]) "e1" Sample.emptyInterest
          = (⟨201, .text "Interest registered"⟩, some data')
      ∧ findFirst (hasId "e1") data' = some e'
      ∧ getProp e' "interests" = some (.arr ([] ++ [Sample.emptyInterest])) :=
  ⟨⟨rfl, rfl⟩,
    (C13_register_accepts_every_body Sample.annDisk [Sample.indexFair] "e1"
      Sample.emptyInterest Sample.indexFair [] rfl rfl).2⟩


/-! ## Users -/

theorem findIndex_lt {α : Type} (p : α → Bool) (l : List α) (i : Nat)
    (h : findIndex p l = some i) : i < l.length := by
  induction l generalizing i with
  | nil => simp [findIndex] at h
  | cons x xs ih =>
    by_cases hx : p x = true
    · simp [findIndex, hx] at h
      subst h
      simp
    · simp only [findIndex, hx] at h
      cases hfi : findIndex p xs with
      | none => simp [hfi] at h
      | some j =>
        simp [hfi] at h
        subst h
        simpa using ih j hfi

theorem flagsKept_refl (us : List Obj) : flagsKept us us :=
  ⟨rfl, fun _ _ _ h => h⟩

theorem flagsKept_trans (us₁ us₂ us₃ : List Obj) (h₁ : flagsKept us₁ us₂)
    (h₂ : flagsKept us₂ us₃) : flagsKept us₁ us₃ :=
  ⟨h₂.1.trans h₁.1, fun i flag hf h => h₂.2 i flag hf (h₁.2 i flag hf h)⟩

theorem getD_set_ne {α : Type} (l : List α) (i j : Nat) (y dflt : α) (h : i ≠ j) :
    (l.set i y).getD j dflt = l.getD j dflt := by
  simp [List.getD, List.getElem?_set_ne h]

theorem flagsKept_set (us : List Obj) (idx : Nat) (k : String) (hlt : idx < us.length) :
    flagsKept us (us.set idx (setProp (us.getD idx []) k (.bool true))) := by
  refine ⟨by simp, ?_⟩
  intro i flag _ h
  by_cases hi : idx = i
  · subst hi
    rw [getD_set_same _ _ _ _ hlt]
    by_cases hk : k = flag
    · subst hk
      exact getProp_setProp_same _ _ _
    · rw [getProp_setProp_ne _ _ _ _ hk]
      exact h
  · rw [getD_set_ne _ _ _ _ _ hi]
    exact h

theorem patchEvent_users {σ : Type} (t : Transport σ) (m : σ) (d : Server.Disk)
    (id : String) (body : Json) : (Server.patchEvent t m d id body).disk.users = d.users := by
  cases h : findIndex (hasId id) (Server.readData d.events) with
  | none => simp only [Server.patchEvent, h]
  | some idx => rw [(patchEvent_found t m d id body idx h).2]

theorem banUser_found (d : Server.Disk) (id : String) (idx : Nat)
    (h : findIndex (hasId id) (Server.readData d.users) = some idx) :
    Server.banUser d id
      = (⟨200, .json (.obj (setProp ((Server.readData d.users).getD idx []) "banned"
            (.bool true)))⟩,
          { d with users := some ((Server.readData d.users).set idx
              (setProp ((Server.readData d.users).getD idx []) "banned" (.bool true))) }) := by
  simp only [Server.banUser, h, Server.writeData]

theorem verifyUser_found (d : Server.Disk) (id : String) (idx : Nat)
    (h : findIndex (hasId id) (Server.readData d.users) = some idx) :
    Server.verifyUser d id
      = (⟨200, .json (.obj (setProp ((Server.readData d.users).getD idx [])
            "verifiedOrganizer" (.bool true)))⟩,
          { d with users := some ((Server.readData d.users).set idx
              (setProp ((Server.readData d.users).getD idx []) "verifiedOrganizer"
                (.bool true))) }) := by
  simp only [Server.verifyUser, h, Server.writeData]

theorem banUser_none (d : Server.Disk) (id : String)
    (h : findIndex (hasId id) (Server.readData d.users) = none) :
    Server.banUser d id = (⟨404, .json (.obj [("message", .str "User not found")])⟩, d) := by
  simp only [Server.banUser, h]

theorem verifyUser_none (d : Server.Disk) (id : String)
    (h : findIndex (hasId id) (Server.readData d.users) = none) :
    Server.verifyUser d id
      = (⟨404, .json (.obj [("message", .str "User not found")])⟩, d) := by
  simp only [Server.verifyUser, h]

theorem getEventById_disk (d : Server.Disk) (id : String) :
    (Server.getEventById d id).2 = d := by
  cases h : findFirst (hasId id) (Server.readData d.events) <;>
    simp only [Server.getEventById, h]

theorem flagsKept_step {σ : Type} (t : Transport σ) (s : Server.Disk × σ)
    (req : Server.Request) :
    flagsKept (Server.readData s.1.users) (Server.readData (Server.step t s req).1.users) := by
  cases req with
  | getEvent id =>
    show flagsKept _ (Server.readData (Server.getEventById s.1 id).2.users)
    rw [getEventById_disk]
    exact flagsKept_refl _
  | patchEvent id body =>
    show flagsKept _ (Server.readData (Server.patchEvent t s.2 s.1 id body).disk.users)
    rw [patchEvent_users]
    exact flagsKept_refl _
  | banUser id =>
    show flagsKept _ (Server.readData (Server.banUser s.1 id).2.users)
    cases h : findIndex (hasId id) (Server.readData s.1.users) with
    | none => rw [banUser_none _ _ h]; exact flagsKept_refl _
    | some idx =>
      rw [banUser_found _ _ _ h]
      exact flagsKept_set _ idx "banned" (findIndex_lt _ _ _ h)
  | verifyUser id =>
    show flagsKept _ (Server.readData (Server.verifyUser s.1 id).2.users)
    cases h : findIndex (hasId id) (Server.readData s.1.users) with
    | none => rw [verifyUser_none _ _ h]; exact flagsKept_refl _
    | some idx =>
      rw [verifyUser_found _ _ _ h]
      exact flagsKept_set _ idx "verifiedOrganizer" (findIndex_lt _ _ _ h)
  | _ => exact flagsKept_refl _

theorem flagsKept_run {σ : Type} (t : Transport σ) (reqs : List Server.Request)
    (s : Server.Disk × σ) :
    flagsKept (Server.readData s.1.users) (Server.readData (Server.run t s reqs).1.users) := by
  induction reqs generalizing s with
  | nil => exact flagsKept_refl _
  | cons req rest ih =>
    exact flagsKept_trans _ _ _ (flagsKept_step t s req) (ih (Server.step t s req))


/-- C14.  When a user with the id is stored, Ban and Verify answer 200 with that
user (the first with the id) in which `banned`, respectively
`verifiedOrganizer`, is `true` and every other field is as stored, and write
the users back with that one user replaced.  When no user has the id, both
answer 404 and leave the files as they were.  After any sequence of requests to
the server and runs of the reminder job, every user is still there and each of
the two flags that was `true` is `true`. -/
theorem C14_ban_verify {σ : Type} (t : Transport σ) (m : σ) (d : Server.Disk)
    (id : String) (reqs : List Server.Request) :
    (∀ u, findFirst (hasId id) (Server.readData d.users) = some u →
      ∃ idx ub uv, idx < (Server.readData d.users).length
        ∧ (Server.readData d.users).getD idx [] = u
        ∧ Server.banUser d id
          = (⟨200, .json (.obj ub)⟩,
              { d with users := some ((Server.readData d.users).set idx ub) })
        ∧ getProp ub "banned" = some (.bool true)
        ∧ (∀ k, k ≠ "banned" → getProp ub k = getProp u k)
        ∧ Server.verifyUser d id
          = (⟨200, .json (.obj uv)⟩,
              { d with users := some ((Server.readData d.users).set idx uv) })
        ∧ getProp uv "verifiedOrganizer" = some (.bool true)
        ∧ (∀ k, k ≠ "verifiedOrganizer" → getProp uv k = getProp u k))
    ∧ ((∀ u ∈ Server.readData d.users, hasId id u = false) →
        Server.banUser d id
          = (⟨404, .json (.obj [("message", .str "User not found")])⟩, d)
        ∧ Server.verifyUser d id
          = (⟨404, .json (.obj [("message", .str "User not found")])⟩, d))
    ∧ flagsKept (Server.readData d.users)
        (Server.readData (Server.run t (d, m) reqs).1.users) := by
  refine ⟨?_, ?_, flagsKept_run t reqs (d, m)⟩
  · intro u hu
    obtain ⟨idx, hidx, hget, _⟩ := findIndex_of_findFirst (hasId id) [] _ u hu
    refine ⟨idx, _, _, findIndex_lt _ _ _ hidx, hget, banUser_found d id idx hidx, ?_, ?_,
      verifyUser_found d id idx hidx, ?_, ?_⟩
    · exact getProp_setProp_same _ _ _
    · intro k hk
      rw [hget, getProp_setProp_ne _ _ _ _ (Ne.symm hk)]
    · exact getProp_setProp_same _ _ _
    · intro k hk
      rw [hget, getProp_setProp_ne _ _ _ _ (Ne.symm hk)]
  · intro h
    have hnone := findIndex_eq_none (hasId id) _ h
    exact ⟨banUser_none d id hnone, verifyUser_none d id hnone⟩

/-- C14 at the users Ann and Carl: Carl is banned and stays banned through a
verify, a ban of an unknown id and a run of the reminder job. -/
theorem C14_ban_verify_witness :
    findFirst (hasId "u2") (Server.readData Sample.twoUsers.users) = some Sample.carl
    ∧ Server.banUser Sample.twoUsers "u2"
        = (⟨200, .json (.obj (setProp Sample.carl "banned" (.bool true)))⟩,
            { Sample.twoUsers with
              users := some [Sample.ann, setProp Sample.carl "banned" (.bool true)] })
    ∧ (∃ idx ub uv, idx < (Server.readData Sample.twoUsers.users).length
        ∧ (Server.readData Sample.twoUsers.users).getD idx [] = Sample.carl
        ∧ Server.banUser Sample.twoUsers "u2"
          = (⟨200, .json (.obj ub)⟩,
              { Sample.twoUsers with
                users := some ((Server.readData Sample.twoUsers.users).set idx ub) })
        ∧ getProp ub "banned" = some (.bool true)
        ∧ (∀ k, k ≠ "banned" → getProp ub k = getProp Sample.carl k)
        ∧ Server.verifyUser Sample.twoUsers "u2"
          = (⟨200, .json (.obj uv)⟩,
              { Sample.twoUsers with
                users := some ((Server.readData Sample.twoUsers.users).set idx uv) })
        ∧ getProp uv "verifiedOrganizer" = some (.bool true)
        ∧ (∀ k, k ≠ "verifiedOrganizer" → getProp uv k = getProp Sample.carl k))
    ∧ flagsKept (Server.readData (Server.banUser Sample.twoUsers "u2").2.users)
        (Server.readData (Server.run (Sample.always true)
          ((Server.banUser Sample.twoUsers "u2").2, ())
          [.verifyUser "u2", .banUser "u9", .reminder "2025-06-02"]).1.users) :=
  ⟨rfl, rfl,
    (C14_ban_verify (Sample.always true) () Sample.twoUsers "u2" []).1 Sample.carl rfl,
    (C14_ban_verify (Sample.always true) () (Server.banUser Sample.twoUsers "u2").2 "u2"
      [.verifyUser "u2", .banUser "u9", .reminder "2025-06-02"]).2.2⟩


/-! ## Status invariant -/

theorem isStatus_assign (src : List (String × Json)) (o : Obj)
    (ho : isStatus (getProp o "status") = true)
    (hsrc : ∀ p ∈ src, p.1 = "status" → isStatus (some p.2) = true) :
    isStatus (getProp (assign o src) "status") = true := by
  induction src generalizing o with
  | nil => exact ho
  | cons p rest ih =>
    show isStatus (getProp (assign (setProp o p.1 p.2) rest) "status") = true
    apply ih
    · by_cases hk : p.1 = "status"
      · rw [hk, getProp_setProp_same]
        exact hsrc p (List.mem_cons_self _ _) hk
      · rw [getProp_setProp_ne _ _ _ _ hk]
        exact ho
    · exact fun q hq => hsrc q (List.mem_cons_of_mem _ hq)

theorem statusSafe_entries (body : Json) (h : statusSafe body = true) :
    ∀ p ∈ body.entries, p.1 = "status" → isStatus (some p.2) = true := by
  intro p hp hk
  have := (List.all_eq_true.mp h) p hp
  simpa [hk] using this

theorem statusInvariant_step {σ : Type} (t : Transport σ) (s : Server.Disk × σ)
    (req : Server.Request) (hreq : keepsStatus req = true) (h : statusInvariant s.1) :
    statusInvariant (Server.step t s req).1 := by
  cases req with
  | getEvent id =>
    show statusInvariant (Server.getEventById s.1 id).2
    rw [getEventById_disk]
    exact h
  | createEvent uuid body =>
    intro e he
    rcases List.mem_append.mp he with he | he
    · exact h e he
    · rw [List.mem_singleton.mp he]
      exact isStatus_assign _ _ (by simp [getProp, isStatus, strictEq])
        (statusSafe_entries body hreq)
  | patchEvent id body =>
    show statusInvariant (Server.patchEvent t s.2 s.1 id body).disk
    cases hfi : findIndex (hasId id) (Server.readData s.1.events) with
    | none =>
      have : (Server.patchEvent t s.2 s.1 id body).disk = s.1 := by
        simp only [Server.patchEvent, hfi]
      rw [this]
      exact h
    | some idx =>
      rw [(patchEvent_found t s.2 s.1 id body idx hfi).2]
      intro e he
      rcases List.mem_or_eq_of_mem_set he with he | he
      · exact h e he
      · rw [he]
        apply isStatus_assign _ _ _ (statusSafe_entries body hreq)
        apply h
        rw [List.getD_eq_getElem _ _ (findIndex_lt _ _ _ hfi)]
        exact List.getElem_mem _
  | deleteEvent id =>
    intro e he
    exact h e (List.mem_filter.mp he).1
  | banUser id =>
    show statusInvariant (Server.banUser s.1 id).2
    cases hfi : findIndex (hasId id) (Server.readData s.1.users) with
    | none => rw [banUser_none _ _ hfi]; exact h
    | some idx => rw [banUser_found _ _ _ hfi]; exact h
  | verifyUser id =>
    show statusInvariant (Server.verifyUser s.1 id).2
    cases hfi : findIndex (hasId id) (Server.readData s.1.users) with
    | none => rw [verifyUser_none _ _ hfi]; exact h
    | some idx => rw [verifyUser_found _ _ _ hfi]; exact h
  | _ => exact h

theorem statusInvariant_run {σ : Type} (t : Transport σ) (reqs : List Server.Request)
    (s : Server.Disk × σ) (hreqs : ∀ r ∈ reqs, keepsStatus r = true)
    (h : statusInvariant s.1) : statusInvariant (Server.run t s reqs).1 := by
  induction reqs generalizing s with
  | nil => exact h
  | cons req rest ih =>
    exact ih (Server.step t s req) (fun r hr => hreqs r (List.mem_cons_of_mem _ hr))
      (statusInvariant_step t s req (hreqs req (List.mem_cons_self _ _)) h)

/-- C15, as stated, fails.  From no events, a Create of the form body and a PATCH
with body `{status: "archived"}` leave a stored event whose status is
`"archived"`. -/
theorem C15_status_invariant_counterexample :
    Server.readData (Server.run (Sample.always true) (Sample.freshDisk, ())
        [.createEvent "e1" Sample.fairBody,
          .patchEvent "e1" (.obj [("status", .str "archived")])]).1.events
      = [[("id", .str "e1"), ("status", .str "archived"), ("title", .str "Fair"),
          ("category", .str "Festivals"), ("date", .str "2025-06-02"),
          ("time", .str "10:00"), ("location", .str "Park"),
          ("description", .str "Spring fair")]]
    ∧ isStatus (some (.str "archived")) = false
    ∧ ¬ statusInvariant (Server.run (Sample.always true) (Sample.freshDisk, ())
        [.createEvent "e1" Sample.fairBody,
          .patchEvent "e1" (.obj [("status", .str "archived")])]).1 := by
  refine ⟨rfl, by decide, ?_⟩
  intro h
  have := h _ (List.mem_singleton.mpr rfl)
  revert this
  decide

/-- C15, amended.  Start with no events and apply any sequence of requests in
which every Create and every PATCH has a body with no `status` property or with
one whose value is `pending`, `approved` or `rejected`.  Then every stored event
has a status and it is one of those three. -/
theorem C15_status_invariant {σ : Type} (t : Transport σ) (m : σ) (d : Server.Disk)
    (reqs : List Server.Request) (hempty : Server.readData d.events = [])
    (hreqs : ∀ r ∈ reqs, keepsStatus r = true) :
    ∀ e ∈ Server.readData (Server.run t (d, m) reqs).1.events,
      getProp e "status" = some (.str "pending")
        ∨ getProp e "status" = some (.str "approved")
        ∨ getProp e "status" = some (.str "rejected") := by
  have hinv : statusInvariant (Server.run t (d, m) reqs).1 :=
    statusInvariant_run t reqs (d, m) hreqs (by intro e he; rw [hempty] at he; cases he)
  intro e he
  have := hinv e he
  simpa [isStatus, strictEq_str, or_assoc] using this

/-- C15 on a create, an approval, a rejection, an interest and a delete of another
id. -/
theorem C15_status_invariant_witness :
    (∀ r ∈ [Server.Request.createEvent "e1" Sample.fairBody,
        .patchEvent "e1" (.obj [("status", .str "approved")]),
        .patchEvent "e1" (.obj [("status", .str "rejected")]),
        .registerInterest "e1" Sample.bobInterest, .deleteEvent "e2"],
      keepsStatus r = true)
    ∧ ∀ e ∈ Server.readData (Server.run (Sample.always true) (Sample.freshDisk, ())
        [.createEvent "e1" Sample.fairBody,
          .patchEvent "e1" (.obj [("status", .str "approved")]),
          .patchEvent "e1" (.obj [("status", .str "rejected")]),
          .registerInterest "e1" Sample.bobInterest, .deleteEvent "e2"]).1.events,
      getProp e "status" = some (.str "pending")
        ∨ getProp e "status" = some (.str "approved")
        ∨ getProp e "status" = some (.str "rejected") :=
  ⟨by decide,
    C15_status_invariant (Sample.always true) () Sample.freshDisk _ rfl (by decide)⟩


/-! ## Identifier -/

theorem map_set_of_eq {α β : Type} (f : α → β) (l : List α) (i : Nat) (y dflt : α)
    (h : f y = f (l.getD i dflt)) : (l.set i y).map f = l.map f := by
  induction l generalizing i with
  | nil => rfl
  | cons x xs ih =>
    cases i with
    | zero => simpa using h
    | succ j => simpa using ih j (by simpa using h)

theorem filter_append_fresh (p : Obj → Bool) (l : List Obj) (e : Obj)
    (hl : ∀ x ∈ l, p x = false) (he : p e = true) : (l ++ [e]).filter p = [e] := by
  rw [List.filter_append, List.filter_eq_nil_iff.mpr (fun x hx => by simp [hl x hx])]
  simp [List.filter_cons, he]

theorem created_id (base : Obj) (uuid : String) (body : Json)
    (hbase : getProp base "id" = some (.str uuid)) (hbody : carries body "id" = false) :
    getProp (assign base body.entries) "id" = some (.str uuid) := by
  rw [getProp_assign_of_absent _ _ _ (absent_of_not_carries body "id" hbody)]
  exact hbase

/-- C16, as stated, fails.  A PATCH to the stored event `e1` whose body carries
`id: "e2"` answers with, and stores, an event whose id is `e2`, so the id `e1`
is gone; a Create whose body carries `id: "mine"` stores the event under `mine`,
not under the minted `e1`. -/
theorem C16_identifier_counterexample :
    (∃ e ∈ Server.readData Sample.annDisk.events, hasId "e1" e = true)
    ∧ ((Server.patchEvent (Sample.always true) () Sample.annDisk "e1"
          (.obj [("id", .str "e2")])).response.event.bind (fun e => getProp e "id"))
        = some (.str "e2")
    ∧ (Server.readData (Server.patchEvent (Sample.always true) () Sample.annDisk "e1"
          (.obj [("id", .str "e2")])).disk.events).map (fun e => getProp e "id")
        = [some (.str "e2")]
    ∧ (Server.getEventById (Server.patchEvent (Sample.always true) () Sample.annDisk "e1"
          (.obj [("id", .str "e2")])).disk "e1").1.status = 404
    ∧ (Server.readData (Server.postEvents Sample.freshDisk "e1"
          (.obj [("id", .str "mine"), ("title", .str "Fair")])).2.events).map
          (fun e => getProp e "id")
        = [some (.str "mine")]
    ∧ (Server.readData (Index.postEvents (some []) "e1"
          (.obj [("id", .str "mine"), ("title", .str "Fair")])).2).map
          (fun e => getProp e "id")
        = [some (.str "mine")] :=
  ⟨⟨_, List.mem_singleton.mpr rfl, by decide⟩, rfl, rfl, rfl, rfl, rfl⟩

/-- C16, amended.  For a body with no `id` property of its own: Create, on both
backends, stores the new event under the minted id, and when no stored event has
that id the new event is the only one that has it; PATCH on an event that exists
answers with, and stores under the id it was addressed by, an event whose id is
that id, and leaves the id of every stored event as it was. -/
theorem C16_identifier {σ : Type} (t : Transport σ) (m : σ) (d : Server.Disk)
    (data : List Obj) (id uuid : String) (body : Json)
    (hbody : carries body "id" = false) :
    (∃ e, Server.postEvents d uuid body
          = (⟨201, .json (.obj e)⟩,
              { d with events := some (Server.readData d.events ++ [e]) })
        ∧ getProp e "id" = some (.str uuid)
        ∧ ((∀ x ∈ Server.readData d.events, hasId uuid x = false) →
            (Server.readData d.events ++ [e]).filter (hasId uuid) = [e]))
    ∧ (∃ e, Index.postEvents (some data) uuid body
          = (⟨201, .json (.obj e)⟩, some (data ++ [e]))
        ∧ getProp e "id" = some (.str uuid)
        ∧ ((∀ x ∈ data, hasId uuid x = false) → (data ++ [e]).filter (hasId uuid) = [e]))
    ∧ ((∃ x ∈ Server.readData d.events, hasId id x = true) →
        ∃ merged events',
          (Server.patchEvent t m d id body).response = ⟨200, .json (.obj merged)⟩
          ∧ getProp merged "id" = some (.str id)
          ∧ (Server.patchEvent t m d id body).disk = { d with events := some events' }
          ∧ findFirst (hasId id) events' = some merged
          ∧ events'.map (fun e => getProp e "id")
            = (Server.readData d.events).map (fun e => getProp e "id")) := by
  have hS := created_id [("id", .str uuid), ("status", .str "pending")] uuid body
    (by simp [getProp]) hbody
  have hI := created_id [("id", .str uuid), ("interests", .arr [])] uuid body
    (by simp [getProp]) hbody
  refine ⟨⟨_, rfl, hS, fun hfresh => filter_append_fresh _ _ _ hfresh ?_⟩,
    ⟨_, rfl, hI, fun hfresh => filter_append_fresh _ _ _ hfresh ?_⟩, ?_⟩
  · simp [hasId, hS, strictEq]
  · simp [hasId, hI, strictEq]
  · intro hex
    obtain ⟨idx, hidx, _, hp, _⟩ := findIndex_of_mem (hasId id) [] _ hex
    obtain ⟨hres, hdisk⟩ := patchEvent_found t m d id body idx hidx
    have hkeep : getProp (mergedAt d idx body) "id"
        = getProp ((Server.readData d.events).getD idx []) "id" :=
      getProp_assign_of_absent _ _ _ (absent_of_not_carries body "id" hbody)
    have hpm : hasId id (mergedAt d idx body) = true := by
      unfold hasId at hp ⊢
      rw [hkeep]
      exact hp
    refine ⟨_, _, hres, (strictEq_str _ _).mp hpm, hdisk,
      (findIndex_set (hasId id) _ idx _ hidx hpm).2, ?_⟩
    exact map_set_of_eq (fun e => getProp e "id") _ idx _ [] hkeep

/-- C16 at Ann's stored event, approved by a body without an id. -/
theorem C16_identifier_witness :
    carries (.obj [("status", .str "approved")]) "id" = false
    ∧ (∃ x ∈ Server.readData Sample.annDisk.events, hasId "e1" x = true)
    ∧ ∃ merged events',
        (Server.patchEvent (Sample.always true) () Sample.annDisk "e1"
          (.obj [("status", .str "approved")])).response = ⟨200, .json (.obj merged)⟩
        ∧ getProp merged "id" = some (.str "e1")
        ∧ (Server.patchEvent (Sample.always true) () Sample.annDisk "e1"
            (.obj [("status", .str "approved")])).disk
          = { Sample.annDisk with events := some events' }
        ∧ findFirst (hasId "e1") events' = some merged
        ∧ events'.map (fun e => getProp e "id")
          = (Server.readData Sample.annDisk.events).map (fun e => getProp e "id") :=
  ⟨by decide, ⟨_, List.mem_singleton.mpr rfl, by decide⟩,
    (C16_identifier (Sample.always true) () Sample.annDisk [] "e1" "e9"
      (.obj [("status", .str "approved")]) (by decide)).2.2
      ⟨_, List.mem_singleton.mpr rfl, by decide⟩⟩


/-! ## Unreadable store -/

theorem organizerEmail_no_users (event : Obj) : organizerEmail [] event = none := rfl

theorem reminderJob_no_users {σ : Type} (t : Transport σ) (m : σ)
    (events : Option (List Obj)) (files : List (String × List Json)) (tomorrow : String) :
    (Server.reminderJob t m ⟨events, none, files⟩ tomorrow).attempts = [] := by
  have h := reminderJob_mails t m ⟨events, none, files⟩ tomorrow
    (fun e _ _ htr => by simp [Server.readData, organizerEmail_no_users, truthy] at htr)
  have hspec : specReminders (Server.readData (none : Option (List Obj))) tomorrow
      (Server.readData events) = [] := by
    simp [specReminders, Server.readData, organizerEmail_no_users, truthy]
  rw [hspec] at h
  exact List.map_eq_nil_iff.mp h

/-- C17, as stated, fails on `server.js`, whose `readData` answers a failed read
with the empty array.  With every file unreadable, the list is answered 200 with
`[]`, Create is answered 201 and writes a file that holds the new event alone,
Delete is answered 204 and writes the empty array, and Register is answered 201
and writes the interest file. -/
theorem C17_unreadable_store_counterexample :
    Sample.lostDisk.events = none
    ∧ Server.getEvents Sample.lostDisk = (⟨200, .json (.arr [])⟩, Sample.lostDisk)
    ∧ (Server.postEvents Sample.lostDisk "e1" Sample.fairBody).1.status = 201
    ∧ (Server.postEvents Sample.lostDisk "e1" Sample.fairBody).2.events
        = some [[("id", .str "e1"), ("status", .str "pending"), ("title", .str "Fair"),
            ("category", .str "Festivals"), ("date", .str "2025-06-02"),
            ("time", .str "10:00"), ("location", .str "Park"),
            ("description", .str "Spring fair")]]
    ∧ Server.deleteEvent Sample.lostDisk "e1"
        = (⟨204, .empty⟩, { Sample.lostDisk with events := some [] })
    ∧ Server.postInterest Sample.lostDisk "e1" Sample.bobInterest
        = (⟨201, .json (.obj [("message", .str "Interest saved")])⟩,
            { Sample.lostDisk with interests := [("e1", [Sample.bobInterest])] }) :=
  ⟨rfl, rfl, rfl, rfl, rfl, rfl⟩

/-- C17, amended.  On `server.js` an unreadable file is read as the empty array,
and no request is answered with an error of the server: with `events.json`
unreadable the list answers 200 with `[]`; Get and PATCH answer 404, write
nothing and send nothing; Create answers 201 and writes the new event alone;
Delete answers 204 and writes the empty array; Register, with the interest file
of the id unreadable or missing, answers 201 and writes the submission alone.  A
run of the reminder job with `events.json` or `users.json` unreadable calls
`sendMail` not at all.  On `index.js` the list, Get, Create, Delete and Register
answer 500 and write nothing. -/
theorem C17_unreadable_store {σ : Type} (t : Transport σ) (m : σ)
    (events users : Option (List Obj)) (files : List (String × List Json))
    (id uuid tomorrow : String) (body : Json)
    (hfile : Server.interestFile files id = none) :
    (Server.getEvents ⟨none, users, files⟩ = (⟨200, .json (.arr [])⟩, ⟨none, users, files⟩)
      ∧ Server.getEventById ⟨none, users, files⟩ id
        = (⟨404, .json (.obj [("message", .str "Event not found")])⟩, ⟨none, users, files⟩)
      ∧ (∃ e, Server.postEvents ⟨none, users, files⟩ uuid body
          = (⟨201, .json (.obj e)⟩, ⟨some [e], users, files⟩))
      ∧ (Server.patchEvent t m ⟨none, users, files⟩ id body).response
        = ⟨404, .json (.obj [("message", .str "Event not found")])⟩
      ∧ (Server.patchEvent t m ⟨none, users, files⟩ id body).disk = ⟨none, users, files⟩
      ∧ (Server.patchEvent t m ⟨none, users, files⟩ id body).attempts = []
      ∧ Server.deleteEvent ⟨none, users, files⟩ id = (⟨204, .empty⟩, ⟨some [], users, files⟩)
      ∧ Server.postInterest ⟨events, users, files⟩ id body
        = (⟨201, .json (.obj [("message", .str "Interest saved")])⟩,
            ⟨events, users, Server.writeInterestFile files id [body]⟩))
    ∧ ((Server.reminderJob t m ⟨none, users, files⟩ tomorrow).attempts = []
      ∧ (Server.reminderJob t m ⟨events, none, files⟩ tomorrow).attempts = [])
    ∧ (Index.getEvents none = (Index.internalError, none)
      ∧ Index.getEventById none id = (Index.internalError, none)
      ∧ Index.postEvents none uuid body = (Index.internalError, none)
      ∧ Index.deleteEvent none id = (Index.internalError, none)
      ∧ Index.postInterest none id body = (Index.internalError, none)
      ∧ Index.internalError.status = 500) := by
  refine ⟨⟨rfl, rfl, ⟨_, rfl⟩, rfl, rfl, rfl, rfl, ?_⟩,
    ⟨rfl, reminderJob_no_users t m events files tomorrow⟩, ⟨rfl, rfl, rfl, rfl, rfl, rfl⟩⟩
  simp [Server.postInterest, hfile, Server.readData]

/-- C17 with every file unreadable and no interest file. -/
theorem C17_unreadable_store_witness :
    Server.interestFile [] "e1" = none
    ∧ (∃ e, Server.postEvents Sample.lostDisk "e1" Sample.fairBody
        = (⟨201, .json (.obj e)⟩, ⟨some [e], none, []⟩))
    ∧ (Server.reminderJob (Sample.always true) () Sample.lostDisk "2025-06-02").attempts = []
    ∧ Index.postEvents none "e1" Sample.fairBody = (Index.internalError, none) :=
  ⟨rfl,
    (C17_unreadable_store (Sample.always true) () none none [] "e1" "e1" "2025-06-02"
      Sample.fairBody rfl).1.2.2.1,
    (C17_unreadable_store (Sample.always true) () none none [] "e1" "e1" "2025-06-02"
      Sample.fairBody rfl).2.1.1,
    (C17_unreadable_store (Sample.always true) () none none [] "e1" "e1" "2025-06-02"
      Sample.fairBody rfl).2.2.2.2.1⟩


end Bulletin
